import Mathlib

/-! Verification model of the python-telegram-bot persistence core.

This file gives a shallow embedding, in Lean 4, of the parts of the
repository that the persistence and handler claims are about:

* a model of Python's JSON values together with a serializer
  (modelling the behaviour of the stdlib and ujson dumps as used by the
  repository, with the compact ujson separators and without whitespace)
  and a deserializer (modelling loads on the strings the serializer
  produces; insignificant whitespace is not modelled since the
  serializer never emits it);
* the helpers encode_conversations_to_json, decode_conversations_from_json
  and decode_user_chat_data_from_json from telegram/utils/helpers.py;
* the DictPersistence class from telegram/ext/dictpersistence.py with its
  constructor, its get_* and update_* operations and the four *_json
  properties, as explicit state passing;
* InlineQueryHandler.check_update from telegram/ext/inlinequeryhandler.py;
* TelegramObject equality together with Location and ForceReply from
  telegram/base.py, telegram/files/location.py and telegram/forcereply.py.

Modelling conventions.  Python dicts are association lists that keep
insertion order, updates keep the position of an existing key and append
new keys at the end, exactly like CPython dicts.  Python numbers appearing
in the JSON data are modelled as integers (the claims under study never
depend on float-specific behaviour).  Python None inside conversation
state values is identified with JSON null, which is how it serializes and
deserializes.  deepcopy returns a value equal to its argument, so in a
value semantics it is the identity.  Strings are serialized with the two
JSON escapes that the repository's data can produce under ujson for the
quote and the backslash; control characters and the ensure_ascii
escaping of non-ASCII characters are outside the modelled string range.
-/

namespace PTB

/-- A Python/JSON value: null, booleans, numbers (modelled as integers),
strings, arrays and objects with string keys and insertion order. -/
inductive Json where
  | null
  | bool (b : Bool)
  | num (n : Int)
  | str (s : String)
  | arr (elems : List Json)
  | obj (fields : List (String × Json))

mutual
/-- Decidable equality for Json values, written by hand because deriving
does not handle the nested inductive. -/
def decJ : (a b : Json) → Decidable (a = b)
  | .null, .null => isTrue rfl
  | .null, .bool _ => isFalse nofun
  | .null, .num _ => isFalse nofun
  | .null, .str _ => isFalse nofun
  | .null, .arr _ => isFalse nofun
  | .null, .obj _ => isFalse nofun
  | .bool _, .null => isFalse nofun
  | .bool a, .bool b =>
    if h : a = b then isTrue (by rw [h]) else isFalse (by intro hh; injection hh; contradiction)
  | .bool _, .num _ => isFalse nofun
  | .bool _, .str _ => isFalse nofun
  | .bool _, .arr _ => isFalse nofun
  | .bool _, .obj _ => isFalse nofun
  | .num _, .null => isFalse nofun
  | .num _, .bool _ => isFalse nofun
  | .num a, .num b =>
    if h : a = b then isTrue (by rw [h]) else isFalse (by intro hh; injection hh; contradiction)
  | .num _, .str _ => isFalse nofun
  | .num _, .arr _ => isFalse nofun
  | .num _, .obj _ => isFalse nofun
  | .str _, .null => isFalse nofun
  | .str _, .bool _ => isFalse nofun
  | .str _, .num _ => isFalse nofun
  | .str a, .str b =>
    if h : a = b then isTrue (by rw [h]) else isFalse (by intro hh; injection hh; contradiction)
  | .str _, .arr _ => isFalse nofun
  | .str _, .obj _ => isFalse nofun
  | .arr _, .null => isFalse nofun
  | .arr _, .bool _ => isFalse nofun
  | .arr _, .num _ => isFalse nofun
  | .arr _, .str _ => isFalse nofun
  | .arr a, .arr b =>
    match decL a b with
    | isTrue h => isTrue (by rw [h])
    | isFalse h => isFalse (by intro hh; injection hh; contradiction)
  | .arr _, .obj _ => isFalse nofun
  | .obj _, .null => isFalse nofun
  | .obj _, .bool _ => isFalse nofun
  | .obj _, .num _ => isFalse nofun
  | .obj _, .str _ => isFalse nofun
  | .obj _, .arr _ => isFalse nofun
  | .obj a, .obj b =>
    match decF a b with
    | isTrue h => isTrue (by rw [h])
    | isFalse h => isFalse (by intro hh; injection hh; contradiction)
def decL : (a b : List Json) → Decidable (a = b)
  | [], [] => isTrue rfl
  | [], _ :: _ => isFalse nofun
  | _ :: _, [] => isFalse nofun
  | a :: as', b :: bs =>
    match decJ a b, decL as' bs with
    | isTrue h1, isTrue h2 => isTrue (by rw [h1, h2])
    | isFalse _, _ => isFalse (by intro hh; injection hh; contradiction)
    | _, isFalse _ => isFalse (by intro hh; injection hh; contradiction)
def decF : (a b : List (String × Json)) → Decidable (a = b)
  | [], [] => isTrue rfl
  | [], _ :: _ => isFalse nofun
  | _ :: _, [] => isFalse nofun
  | (k1, v1) :: as', (k2, v2) :: bs =>
    match String.decEq k1 k2, decJ v1 v2, decF as' bs with
    | isTrue hk, isTrue hv, isTrue ht => isTrue (by rw [hk, hv, ht])
    | isFalse _, _, _ =>
      isFalse (by intro hh; injection hh with h1 h2; injection h1; contradiction)
    | _, isFalse _, _ =>
      isFalse (by intro hh; injection hh with h1 h2; injection h1; contradiction)
    | _, _, isFalse _ => isFalse (by intro hh; injection hh; contradiction)
end

instance : DecidableEq Json := decJ

/-- The opening brace character, kept abstract by code point. -/
def lbrace : Char := Char.ofNat 123

/-- The closing brace character, kept abstract by code point. -/
def rbrace : Char := Char.ofNat 125

/-- The decimal digit character for a digit value. -/
def digitChar (d : Nat) : Char := Char.ofNat (48 + d)

/-- The digit value of a decimal digit character. -/
def digitVal (c : Char) : Nat := c.toNat - 48

/-- Most-significant-first decimal digits of a natural number; the fuel
argument makes the recursion structural, any fuel above the argument is
enough. -/
def natChars : Nat → Nat → List Char
  | 0, _ => []
  | fuel + 1, n => if n = 0 then [] else natChars fuel (n / 10) ++ [digitChar (n % 10)]

/-- Decimal rendering of a natural number. -/
def printNat (n : Nat) : List Char := if n = 0 then [digitChar 0] else natChars (n + 1) n

/-- Decimal rendering of an integer, as json.dumps renders Python ints. -/
def printInt (i : Int) : List Char :=
  if i < 0 then '-' :: printNat i.natAbs else printNat i.natAbs

/-- The characters of the literal null. -/
def nullChars : List Char := ['n', 'u', 'l', 'l']

/-- The characters of the literal true. -/
def trueChars : List Char := ['t', 'r', 'u', 'e']

/-- The characters of the literal false. -/
def falseChars : List Char := ['f', 'a', 'l', 's', 'e']

/-- The JSON string-body escaping done by dumps on the modelled string
range: quote and backslash get a backslash prefix. -/
def escapeChars : List Char → List Char
  | [] => []
  | c :: r => if c = '"' ∨ c = '\\' then '\\' :: c :: escapeChars r else c :: escapeChars r

mutual
/-- Rendering of a Json value, modelling json.dumps with the compact
(ujson) separators: no whitespace after commas and colons. -/
def printJson : Json → List Char
  | .null => nullChars
  | .bool true => trueChars
  | .bool false => falseChars
  | .num i => printInt i
  | .str s => '"' :: (escapeChars s.data ++ ['"'])
  | .arr xs => '[' :: (printItems xs ++ [']'])
  | .obj fs => lbrace :: (printFields fs ++ [rbrace])
/-- Rendering of the element list of an array, without the brackets. -/
def printItems : List Json → List Char
  | [] => []
  | x :: xs => printJson x ++ printITail xs
/-- Rendering of the second and later array elements, each preceded by a
comma. -/
def printITail : List Json → List Char
  | [] => []
  | x :: xs => ',' :: (printJson x ++ printITail xs)
/-- Rendering of the member list of an object, without the braces. -/
def printFields : List (String × Json) → List Char
  | [] => []
  | (k, v) :: fs =>
    ('"' :: (escapeChars k.data ++ ('"' :: ':' :: printJson v))) ++ printFTail fs
/-- Rendering of the second and later object members, each preceded by a
comma. -/
def printFTail : List (String × Json) → List Char
  | [] => []
  | (k, v) :: fs =>
    ',' :: (('"' :: (escapeChars k.data ++ ('"' :: ':' :: printJson v))) ++ printFTail fs)
end

/-- json.dumps on the modelled value range. -/
def dumps (v : Json) : String := String.mk (printJson v)

mutual
/-- Structural size of a Json value, used as a fuel bound for the parser. -/
def sizeJ : Json → Nat
  | .arr xs => 1 + sizeL xs
  | .obj fs => 1 + sizeF fs
  | .str _ => 1
  | .num _ => 1
  | .bool _ => 1
  | .null => 1
/-- Size of an array element list; one above the sum so that it is
positive even when empty. -/
def sizeL : List Json → Nat
  | [] => 1
  | x :: xs => 1 + sizeJ x + sizeL xs
/-- Size of an object member list; one above the sum so that it is
positive even when empty. -/
def sizeF : List (String × Json) → Nat
  | [] => 1
  | (_, v) :: fs => 1 + sizeJ v + sizeF fs
end

/-- Whether the input begins with a decimal digit (so a greedy number
parse would keep consuming). -/
def digitStart : List Char → Bool
  | [] => false
  | c :: _ => c.isDigit

/-- Greedy decimal digit consumption with an accumulator. -/
def parseDigits : List Char → Nat → Nat × List Char
  | [], acc => (acc, [])
  | c :: r, acc => if c.isDigit then parseDigits r (10 * acc + digitVal c) else (acc, c :: r)

/-- Parse a nonempty decimal digit run into a natural number. -/
def parseNatNum : List Char → Option (Nat × List Char)
  | [] => none
  | c :: r => if c.isDigit then some (parseDigits r (digitVal c)) else none

/-- Expect a fixed literal character sequence and return the remainder. -/
def expectLit : List Char → List Char → Option (List Char)
  | [], l => some l
  | c :: cs, d :: l => if d = c then expectLit cs l else none
  | _ :: _, [] => none

/-- Worker for the string-body parser: one character per step, with a
flag recording that the previous character was an unconsumed backslash
and an accumulator holding the body read so far in reverse. -/
def charsBodyAux : Bool → List Char → List Char → Option (List Char × List Char)
  | _, _, [] => none
  | false, acc, c :: r =>
    if c = '"' then some (acc.reverse, r)
    else if c = '\\' then charsBodyAux true acc r
    else charsBodyAux false (c :: acc) r
  | true, acc, c :: r =>
    if c = '"' ∨ c = '\\' then charsBodyAux false (c :: acc) r else none

/-- Parse a JSON string body after the opening quote, undoing the
escaping of escapeChars, up to the closing quote. -/
def charsBody (l : List Char) : Option (List Char × List Char) := charsBodyAux false [] l

mutual
/-- Parse one JSON value, fuel-bounded; dispatches on the first
character.  Models json.loads on the whitespace-free strings that the
serializer of this file produces. -/
def parseVal : Nat → List Char → Option (Json × List Char)
  | 0, _ => none
  | _ + 1, [] => none
  | fuel + 1, c :: r =>
    if c = 'n' then
      match expectLit ['u', 'l', 'l'] r with
      | some r2 => some (.null, r2)
      | none => none
    else if c = 't' then
      match expectLit ['r', 'u', 'e'] r with
      | some r2 => some (.bool true, r2)
      | none => none
    else if c = 'f' then
      match expectLit ['a', 'l', 's', 'e'] r with
      | some r2 => some (.bool false, r2)
      | none => none
    else if c = '"' then
      match charsBody r with
      | some (s, r2) => some (.str (String.mk s), r2)
      | none => none
    else if c = '[' then parseArrItems fuel r
    else if c = lbrace then parseObjItems fuel r
    else if c = '-' then
      match parseNatNum r with
      | some (m, r2) => some (.num (-(m : Int)), r2)
      | none => none
    else if c.isDigit then
      match parseNatNum (c :: r) with
      | some (m, r2) => some (.num (m : Int), r2)
      | none => none
    else none
/-- Parse the inside of an array after the opening bracket, including the
closing bracket. -/
def parseArrItems : Nat → List Char → Option (Json × List Char)
  | 0, _ => none
  | _ + 1, [] => none
  | fuel + 1, c :: r =>
    if c = ']' then some (.arr [], r)
    else
      match parseVal fuel (c :: r) with
      | some (v, r1) =>
        match parseArrTail fuel r1 with
        | some (vs, r2) => some (.arr (v :: vs), r2)
        | none => none
      | none => none
/-- Parse the comma-separated continuation of an array up to and
including the closing bracket. -/
def parseArrTail : Nat → List Char → Option (List Json × List Char)
  | 0, _ => none
  | _ + 1, [] => none
  | fuel + 1, c :: r =>
    if c = ']' then some ([], r)
    else if c = ',' then
      match parseVal fuel r with
      | some (v, r1) =>
        match parseArrTail fuel r1 with
        | some (vs, r2) => some (v :: vs, r2)
        | none => none
      | none => none
    else none
/-- Parse one quoted object key, the colon and the member value. -/
def parseMember : Nat → List Char → Option ((String × Json) × List Char)
  | 0, _ => none
  | _ + 1, [] => none
  | fuel + 1, c :: r =>
    if c = '"' then
      match charsBody r with
      | some (k, r1) =>
        match r1 with
        | ':' :: r2 =>
          match parseVal fuel r2 with
          | some (v, r3) => some ((String.mk k, v), r3)
          | none => none
        | _ => none
      | none => none
    else none
/-- Parse the inside of an object after the opening brace, including the
closing brace. -/
def parseObjItems : Nat → List Char → Option (Json × List Char)
  | 0, _ => none
  | _ + 1, [] => none
  | fuel + 1, c :: r =>
    if c = rbrace then some (.obj [], r)
    else
      match parseMember fuel (c :: r) with
      | some (kv, r1) =>
        match parseObjTail fuel r1 with
        | some (fs, r2) => some (.obj (kv :: fs), r2)
        | none => none
      | none => none
/-- Parse the comma-separated continuation of an object up to and
including the closing brace. -/
def parseObjTail : Nat → List Char → Option (List (String × Json) × List Char)
  | 0, _ => none
  | _ + 1, [] => none
  | fuel + 1, c :: r =>
    if c = rbrace then some ([], r)
    else if c = ',' then
      match parseMember fuel r with
      | some (kv, r1) =>
        match parseObjTail fuel r1 with
        | some (fs, r2) => some (kv :: fs, r2)
        | none => none
      | none => none
    else none
end

/-- json.loads on the modelled range: the whole input must parse as one
value with nothing left over.  Twice the length plus two is always enough
fuel for an input in the image of dumps. -/
def loads (s : String) : Option Json :=
  match parseVal (2 * s.data.length + 2) s.data with
  | some (v, []) => some v
  | _ => none

/-! Section: Python dictionaries as ordered association lists -/

/-- Python dict key lookup: first (and in a dict, only) binding wins. -/
def lookupA {α β : Type} [DecidableEq α] : List (α × β) → α → Option β
  | [], _ => none
  | (k, v) :: t, a => if a = k then some v else lookupA t a

/-- Python dict item assignment: an existing key keeps its position and
gets the new value, a new key is appended at the end. -/
def insertA {α β : Type} [DecidableEq α] : List (α × β) → α → β → List (α × β)
  | [], a, b => [(a, b)]
  | (k, v) :: t, a, b => if a = k then (k, b) :: t else (k, v) :: insertA t a b

/-- Python dict.setdefault: return the value bound to the key, binding
the default first when the key is absent; also returns the updated dict. -/
def setdefaultA {α β : Type} [DecidableEq α] (l : List (α × β)) (a : α) (b : β) :
    β × List (α × β) :=
  match lookupA l a with
  | some v => (v, l)
  | none => (b, l ++ [(a, b)])

/-- A Python dict key as it can occur in user/chat/bot data after the
decoding helpers ran: either an int or a string. -/
inductive JKey where
  | int (i : Int)
  | str (s : String)
deriving DecidableEq

/-- A Python dict with int-or-string keys and JSON-like values, the shape
of one user's or one chat's data dict and of bot_data. -/
abbrev PyDict : Type := List (JKey × Json)

/-- user_data / chat_data: a map from the int user or chat id to that
id's data dict. -/
abbrev UserData : Type := List (Int × PyDict)

/-- A conversation key, a tuple of ints per the declared
Tuple[int, ...] parameter type of update_conversation. -/
abbrev ConvKey : Type := List Int

/-- The per-handler conversation map from keys to state values; the
Python None state is represented by Json.null, which is exactly how it
round-trips through the JSON layer. -/
abbrev HandlerMap : Type := List (ConvKey × Json)

/-- The conversations store: handler name to per-handler map. -/
abbrev ConvData : Type := List (String × HandlerMap)

/-! Section: The helpers of telegram/utils/helpers.py -/

/-- encode_conversations_to_json: each tuple key is itself dumped to a
JSON string before being used as an object key, then the whole nested
mapping is dumped. -/
def encode_conversations_to_json (conversations : ConvData) : String :=
  dumps (Json.obj (conversations.map fun hs =>
    (hs.1, Json.obj (hs.2.map fun ks => (dumps (Json.arr (ks.1.map Json.num)), ks.2)))))

/-- Per-element option-valued mapping over a list, failing when any
element fails: the shape of the Python dict comprehensions in the
decoding helpers, where one raising element fails the whole decode. -/
def mapOpt {α β : Type} (f : α → Option β) (l : List α) : Option (List β) :=
  match l with
  | [] => some []
  | a :: t =>
    match f a, mapOpt f t with
    | some b, some bs => some (b :: bs)
    | _, none => none
    | none, _ => none

/-- Read a conversation key back from its serialized form: the key string
must itself parse as a JSON array and, per the declared int-tuple key
type, its elements must be numbers. -/
def decodeConvKey (s : String) : Option ConvKey :=
  match loads s with
  | some (.arr elems) =>
    mapOpt (fun e =>
      match e with
      | .num i => some i
      | _ => none) elems
  | _ => none

/-- decode_conversations_from_json: loads the string, then turns each
inner object key back into a tuple via a nested loads.  Any failure
(a non-object where an object is expected, an unparsable key) is the
exception path of the Python code, modelled as none. -/
def decode_conversations_from_json (s : String) : Option ConvData :=
  match loads s with
  | some (.obj handlers) =>
    mapOpt (fun hs =>
      match hs.2 with
      | .obj states =>
        (mapOpt (fun (ks : String × Json) =>
          match decodeConvKey ks.1 with
          | some key => some (key, ks.2)
          | none => none) states).map fun m => (hs.1, m)
      | _ => none) handlers
  | _ => none

/-- Python int(string) on the strings that json.dumps produces for int
dict keys: an optional minus sign followed by decimal digits, consuming
the whole string. -/
def pyIntOfString (s : String) : Option Int :=
  match s.data with
  | '-' :: r =>
    match parseNatNum r with
    | some (m, []) => some (-(m : Int))
    | _ => none
  | l =>
    match parseNatNum l with
    | some (m, []) => some (m : Int)
    | _ => none

/-- The inner-key conversion of decode_user_chat_data_from_json: try
int(key) and fall back to the string itself on ValueError. -/
def tryIntKey (s : String) : JKey :=
  match pyIntOfString s with
  | some i => .int i
  | none => .str s

/-- decode_user_chat_data_from_json: the outer keys must be int-parsable
(int(user) raising is the exception path, modelled as none), each value
must be a dict, and inner keys are int-converted when possible. -/
def decode_user_chat_data_from_json (s : String) : Option UserData :=
  match loads s with
  | some (.obj users) =>
    mapOpt (fun (uv : String × Json) =>
      match pyIntOfString uv.1 with
      | some uid =>
        match uv.2 with
        | .obj fields => some (uid, fields.map fun kv => (tryIntKey kv.1, kv.2))
        | _ => none
      | none => none) users
  | _ => none

/-- The serialized form of a dict key under json.dumps: int keys are
rendered as their decimal string, string keys stay themselves. -/
def jkeyString : JKey → String
  | .int i => String.mk (printInt i)
  | .str s => s

/-- json.dumps on a user_data/chat_data store (or on None): the outer int
ids and the inner int-or-string keys all become object key strings. -/
def dumpsUserData (store : Option UserData) : String :=
  match store with
  | none => "null"
  | some l =>
    dumps (Json.obj (l.map fun ud =>
      (String.mk (printInt ud.1), Json.obj (ud.2.map fun kv => (jkeyString kv.1, kv.2)))))

/-- json.dumps on a bot_data dict (or on None). -/
def dumpsBotData (store : Option PyDict) : String :=
  match store with
  | none => "null"
  | some d => dumps (Json.obj (d.map fun kv => (jkeyString kv.1, kv.2)))

/-- The bot_data branch of the DictPersistence constructor: json.loads
plus the isinstance dict check; the string keys of a loaded object stay
strings. -/
def decodeBotData (s : String) : Option PyDict :=
  match loads s with
  | some (.obj fields) => some (fields.map fun kv => (JKey.str kv.1, kv.2))
  | _ => none

/-! Section: DictPersistence (telegram/ext/dictpersistence.py) -/

/-- The mutable state of a DictPersistence object: the four stores
(Python None when never initialised) and the four cached JSON strings
(Python None when absent or invalidated).  The store_user_data,
store_chat_data and store_bot_data flags are not modelled: no method of
DictPersistence reads them. -/
structure DictPersistence where
  user_data : Option UserData
  chat_data : Option UserData
  bot_data : Option PyDict
  conversations : Option ConvData
  user_data_json : Option String
  chat_data_json : Option String
  bot_data_json : Option String
  conversations_json : Option String
deriving DecidableEq

/-- The user_data_json branch of the DictPersistence constructor: a
nonempty string is decoded and stored together with its decoded value; a
decoding failure raises TypeError. -/
def loadUserPart (s : String) (p : DictPersistence) : Except String DictPersistence :=
  if s ≠ "" then
    match decode_user_chat_data_from_json s with
    | some d => Except.ok { p with user_data := some d, user_data_json := some s }
    | none => Except.error ("Unable to deserialize user_data_json. Not valid JSON")
  else Except.ok p

/-- The chat_data_json branch of the DictPersistence constructor. -/
def loadChatPart (s : String) (p : DictPersistence) : Except String DictPersistence :=
  if s ≠ "" then
    match decode_user_chat_data_from_json s with
    | some d => Except.ok { p with chat_data := some d, chat_data_json := some s }
    | none => Except.error ("Unable to deserialize chat_data_json. Not valid JSON")
  else Except.ok p

/-- The bot_data_json branch of the DictPersistence constructor: loads
plus the isinstance dict check. -/
def loadBotPart (s : String) (p : DictPersistence) : Except String DictPersistence :=
  if s ≠ "" then
    match decodeBotData s with
    | some d => Except.ok { p with bot_data := some d, bot_data_json := some s }
    | none => Except.error ("Unable to deserialize bot_data_json. Not a serialized dict")
  else Except.ok p

/-- The conversations_json branch of the DictPersistence constructor. -/
def loadConvPart (s : String) (p : DictPersistence) : Except String DictPersistence :=
  if s ≠ "" then
    match decode_conversations_from_json s with
    | some d => Except.ok { p with conversations := some d, conversations_json := some s }
    | none => Except.error ("Unable to deserialize conversations_json. Not valid JSON")
  else Except.ok p

/-- The DictPersistence constructor.  Every field starts at None, then
the four JSON arguments are processed in the order of the Python
__init__, each nonempty one decoded and cached, with the first failure
aborting construction (TypeError). -/
def DictPersistence.init (user_data_json chat_data_json bot_data_json conversations_json :
    String) : Except String DictPersistence :=
  match loadUserPart user_data_json ⟨none, none, none, none, none, none, none, none⟩ with
  | Except.error e => Except.error e
  | Except.ok p1 =>
    match loadChatPart chat_data_json p1 with
    | Except.error e => Except.error e
    | Except.ok p2 =>
      match loadBotPart bot_data_json p2 with
      | Except.error e => Except.error e
      | Except.ok p3 => loadConvPart conversations_json p3

/-- The truthiness-based or of the *_json properties: an absent or empty
cached string falls back to the freshly dumped value. -/
def pyOrStr (cache : Option String) (fallback : String) : String :=
  match cache with
  | some s => if s = "" then fallback else s
  | none => fallback

/-- The user_data_json property. -/
def DictPersistence.userDataJsonView (p : DictPersistence) : String :=
  pyOrStr p.user_data_json (dumpsUserData p.user_data)

/-- The chat_data_json property. -/
def DictPersistence.chatDataJsonView (p : DictPersistence) : String :=
  pyOrStr p.chat_data_json (dumpsUserData p.chat_data)

/-- The bot_data_json property. -/
def DictPersistence.botDataJsonView (p : DictPersistence) : String :=
  pyOrStr p.bot_data_json (dumpsBotData p.bot_data)

/-- The conversations_json property.  encode_conversations_to_json on an
absent conversations store is Python's AttributeError on None, modelled
as none; with a present store the property is total. -/
def DictPersistence.conversationsJsonView (p : DictPersistence) : Option String :=
  match p.conversations_json with
  | some s =>
    if s = "" then p.conversations.map encode_conversations_to_json else some s
  | none => p.conversations.map encode_conversations_to_json

/-- get_user_data: a falsy store (None or empty) is replaced by a fresh
empty defaultdict, then a deepcopy of the store is returned. -/
def DictPersistence.getUserData (p : DictPersistence) : UserData × DictPersistence :=
  let s : UserData := match p.user_data with
    | none => []
    | some s => if s = [] then [] else s
  (s, { p with user_data := some s })

/-- get_chat_data, identical to get_user_data on the chat store. -/
def DictPersistence.getChatData (p : DictPersistence) : UserData × DictPersistence :=
  let s : UserData := match p.chat_data with
    | none => []
    | some s => if s = [] then [] else s
  (s, { p with chat_data := some s })

/-- get_bot_data: a falsy store is replaced by a fresh empty dict, then a
deepcopy of the store is returned. -/
def DictPersistence.getBotData (p : DictPersistence) : PyDict × DictPersistence :=
  let s : PyDict := match p.bot_data with
    | none => []
    | some s => if s = [] then [] else s
  (s, { p with bot_data := some s })

/-- get_conversations: a falsy conversations store is replaced by an
empty dict, then a copy of the per-handler map for the name (or an empty
map) is returned. -/
def DictPersistence.getConversations (p : DictPersistence) (name : String) :
    HandlerMap × DictPersistence :=
  let c : ConvData := match p.conversations with
    | none => []
    | some c => if c = [] then [] else c
  ((lookupA c name).getD [], { p with conversations := some c })

/-- update_conversation: a falsy store is first replaced by an empty
dict; setdefault materialises the per-handler map; when the stored value
for the key (dict.get, whose miss value None is represented by
Json.null) already equals the new state the method returns with the
cached JSON untouched, otherwise the state is written and the cached
JSON invalidated. -/
def DictPersistence.updateConversation (p : DictPersistence) (name : String)
    (key : ConvKey) (newState : Json) : DictPersistence :=
  let conv : ConvData := match p.conversations with
    | none => []
    | some c => if c = [] then [] else c
  let hm := (setdefaultA conv name []).1
  let conv1 := (setdefaultA conv name []).2
  let p1 := { p with conversations := some conv1 }
  if (lookupA hm key).getD Json.null = newState then p1
  else { p1 with
    conversations := some (insertA conv1 name (insertA hm key newState)),
    conversations_json := none }

/-- update_user_data: an absent store is first replaced by an empty
defaultdict; when the stored dict for the id already equals the new data
the method returns with the cached JSON untouched, otherwise the data is
written and the cached JSON invalidated. -/
def DictPersistence.updateUserData (p : DictPersistence) (user_id : Int) (data : PyDict) :
    DictPersistence :=
  let s : UserData := (p.user_data).getD []
  let p1 := { p with user_data := some s }
  if lookupA s user_id = some data then p1
  else { p1 with user_data := some (insertA s user_id data), user_data_json := none }

/-- update_chat_data, identical to update_user_data on the chat store. -/
def DictPersistence.updateChatData (p : DictPersistence) (chat_id : Int) (data : PyDict) :
    DictPersistence :=
  let s : UserData := (p.chat_data).getD []
  let p1 := { p with chat_data := some s }
  if lookupA s chat_id = some data then p1
  else { p1 with chat_data := some (insertA s chat_id data), chat_data_json := none }

/-- update_bot_data: when the stored dict already equals the new data
the method returns (a never-initialised None store never equals a dict),
otherwise a copy of the data is written and the cached JSON
invalidated. -/
def DictPersistence.updateBotData (p : DictPersistence) (data : PyDict) :
    DictPersistence :=
  if p.bot_data = some data then p
  else { p with bot_data := some data, bot_data_json := none }

/-- One entry of the persisted conversations store as an observer reads
it: the state recorded for a key under a handler name, with both an
absent store and an absent handler reading as the empty map. -/
def DictPersistence.convEntry (p : DictPersistence) (name : String) (key : ConvKey) :
    Option Json :=
  lookupA ((lookupA (p.conversations.getD []) name).getD []) key

/-- One entry of the persisted user_data store as an observer reads it. -/
def DictPersistence.userEntry (p : DictPersistence) (user_id : Int) : Option PyDict :=
  lookupA (p.user_data.getD []) user_id

/-- One entry of the persisted chat_data store as an observer reads it. -/
def DictPersistence.chatEntry (p : DictPersistence) (chat_id : Int) : Option PyDict :=
  lookupA (p.chat_data.getD []) chat_id

/-- Cache consistency for a user_data or chat_data store: when the
cached JSON string is present, the store is present and the cached
string decodes back to it. -/
def UserConsistent (store : Option UserData) (cache : Option String) : Prop :=
  ∀ s, cache = some s →
    ∃ st, store = some st ∧ decode_user_chat_data_from_json s = some st

/-- Cache consistency for the bot_data store. -/
def BotConsistent (store : Option PyDict) (cache : Option String) : Prop :=
  ∀ s, cache = some s → ∃ st, store = some st ∧ decodeBotData s = some st

/-- Cache consistency for the conversations store, up to the
unobservable difference between an absent handler entry and one holding
an empty map: dict.setdefault can materialise empty per-handler maps on
the early-return path of update_conversation without touching the
cache. -/
def ConvConsistent (store : Option ConvData) (cache : Option String) : Prop :=
  ∀ s, cache = some s →
    ∃ st, store = some st ∧
      ∃ d, decode_conversations_from_json s = some d ∧
        ∀ name, (lookupA d name).getD [] = (lookupA st name).getD []

/-- Cache consistency of a DictPersistence state: whenever one of the
four cached JSON strings is present, the corresponding store is present
and the cached string decodes back to it through the decoder that the
constructor uses. -/
def Consistent (p : DictPersistence) : Prop :=
  UserConsistent p.user_data p.user_data_json ∧
  UserConsistent p.chat_data p.chat_data_json ∧
  BotConsistent p.bot_data p.bot_data_json ∧
  ConvConsistent p.conversations p.conversations_json

/-! Section: InlineQueryHandler (telegram/ext/inlinequeryhandler.py) -/

/-- A successful regex match object; only its existence matters to
check_update. -/
structure ReMatch where
  matched : String
deriving DecidableEq

/-- A compiled regex pattern, modelled extensionally as the re.match
function it induces: for a query string, the match at the start of the
string or None. -/
abbrev RePattern : Type := String → Option ReMatch

/-- The inline query payload of an update; only the query text matters
to check_update. -/
structure InlineQuery where
  query : String
deriving DecidableEq

/-- A telegram Update, reduced to the field check_update consults: the
optional inline_query (None on updates of other kinds). -/
structure Update where
  inline_query : Option InlineQuery
deriving DecidableEq

/-- An arbitrary Python object arriving at check_update: either a
telegram Update or any other object, for which isinstance fails. -/
inductive PyInput where
  | upd (u : Update)
  | other

/-- The handler state check_update reads: the optional compiled
pattern. -/
structure InlineQueryHandler where
  pattern : Option RePattern

/-- The three possible results of check_update: True, a match object, or
None (no match); the Python None result is the none case of the
option. -/
inductive CheckResult where
  | bool (b : Bool)
  | reMatch (m : ReMatch)

/-- InlineQueryHandler.check_update: requires an Update carrying an
inline_query; with no pattern configured it returns True; with a pattern
it requires a nonempty query text that matches; every other input falls
through to None.  The function is total: no input makes it raise. -/
def InlineQueryHandler.checkUpdate (h : InlineQueryHandler) (u : PyInput) :
    Option CheckResult :=
  match u with
  | .upd u =>
    match u.inline_query with
    | some iq =>
      match h.pattern with
      | none => some (.bool true)
      | some pat =>
        if iq.query ≠ "" then
          match pat iq.query with
          | some m => some (.reMatch m)
          | none => none
        else none
    | none => none
  | .other => none

/-! Section: TelegramObject equality, Location, ForceReply -/

/-- telegram.Location: longitude and latitude are required; the four
optional live-location attributes are stored through an or-None
truthiness coercion, so an explicit falsy zero is stored as None.
Coordinates are modelled as integers; only which attributes take part in
equality matters to the claims. -/
structure Location where
  longitude : Int
  latitude : Int
  horizontal_accuracy : Option Int
  live_period : Option Int
  heading : Option Int
  proximity_alert_radius : Option Int
deriving DecidableEq

/-- The or-None coercion the Location constructor applies to each
optional numeric argument: a falsy value (an explicit 0 as well as an
omitted None) is stored as None. -/
def orNone (x : Option Int) : Option Int :=
  match x with
  | some v => if v = 0 then none else some v
  | none => none

/-- The Location constructor: required attributes stored as passed, the
optionals through the or-None coercion. -/
def Location.make (longitude latitude : Int)
    (horizontal_accuracy live_period heading proximity_alert_radius : Option Int) :
    Location :=
  { longitude := longitude
    latitude := latitude
    horizontal_accuracy := orNone horizontal_accuracy
    live_period := orNone live_period
    heading := orNone heading
    proximity_alert_radius := orNone proximity_alert_radius }

/-- Location._id_attrs as set by its constructor. -/
def Location.idAttrs (l : Location) : Int × Int := (l.longitude, l.latitude)

/-- TelegramObject.__eq__ specialised to Location: two instances of the
same class compare by their _id_attrs tuples. -/
def Location.eqTO (a b : Location) : Bool := a.idAttrs = b.idAttrs

/-- telegram.ForceReply: force_reply is always stored (True by default);
selective is the only member of _id_attrs. -/
structure ForceReply where
  force_reply : Bool
  selective : Bool
deriving DecidableEq

/-- The ForceReply constructor stores both arguments unchanged. -/
def ForceReply.make (force_reply selective : Bool) : ForceReply :=
  { force_reply := force_reply, selective := selective }

/-- ForceReply._id_attrs as set by its constructor. -/
def ForceReply.idAttrs (f : ForceReply) : Bool := f.selective

/-- TelegramObject.__eq__ specialised to ForceReply. -/
def ForceReply.eqTO (a b : ForceReply) : Bool := a.idAttrs = b.idAttrs

/-! Section: Concrete fixtures used in witnesses and counterexamples -/

/-- The freshly constructed persistence state: all stores and caches
None, as produced by the constructor on four empty strings. -/
def emptyP : DictPersistence := ⟨none, none, none, none, none, none, none, none⟩

/-- A handler name used in concrete scenarios. -/
def nameA : String := "handlerA"

/-- A concrete user_data/chat_data JSON string. -/
def wUserJson : String := "\x7b\"1\":\x7b\"a\":5\x7d\x7d"

/-- A concrete bot_data JSON string. -/
def wBotJson : String := "\x7b\"k\":1\x7d"

/-- A concrete conversations JSON string with one serialized tuple key. -/
def wConvJson : String := "\x7b\"n\":\x7b\"[1,2]\":3\x7d\x7d"

/-- The persistence state the constructor builds from the three concrete
JSON strings above. -/
def wP : DictPersistence :=
  ⟨some [(1, [(JKey.str ("a"), Json.num 5)])],
   some [(1, [(JKey.str ("a"), Json.num 5)])],
   some [(JKey.str ("k"), Json.num 1)],
   some [("n", [([1, 2], Json.num 3)])],
   some wUserJson, some wUserJson, some wBotJson, some wConvJson⟩

/-- A data dict whose only key is the string "5", which json.dumps
followed by the decoding helper turns into the int key 5. -/
def wBad : PyDict := [(JKey.str ("5"), Json.num 7)]

/-- A second handler name used in concrete scenarios. -/
def nameB : String := "handlerB"

/-- The handler name appearing in the concrete conversations JSON. -/
def nameN : String := "n"

/-- The empty string, as passed for an omitted constructor argument. -/
def emptyStr : String := ""

/-! Section: Lemmas: association lists -/

theorem lookupA_insertA_self {α β : Type} [DecidableEq α] (l : List (α × β)) (a : α)
    (b : β) : lookupA (insertA l a b) a = some b := by
  induction l with
  | nil => simp [insertA, lookupA]
  | cons kv t ih =>
    obtain ⟨k, v⟩ := kv
    by_cases h : a = k
    · subst h; simp [insertA, lookupA]
    · simp [insertA, lookupA, h, ih]

theorem lookupA_insertA_ne {α β : Type} [DecidableEq α] (l : List (α × β)) (a a' : α)
    (b : β) (h : a' ≠ a) : lookupA (insertA l a b) a' = lookupA l a' := by
  induction l with
  | nil => simp [insertA, lookupA, h]
  | cons kv t ih =>
    obtain ⟨k, v⟩ := kv
    by_cases hk : a = k
    · subst hk; simp [insertA, lookupA, h]
    · by_cases hk' : a' = k
      · subst hk'; simp [insertA, lookupA, hk]
      · simp [insertA, lookupA, hk, hk', ih]

theorem lookupA_append_single_self {α β : Type} [DecidableEq α] (l : List (α × β))
    (a : α) (b : β) (h : lookupA l a = none) :
    lookupA (l ++ [(a, b)]) a = some b := by
  induction l with
  | nil => simp [lookupA]
  | cons kv t ih =>
    obtain ⟨k, v⟩ := kv
    by_cases hk : a = k
    · simp [lookupA, hk] at h
    · simp [lookupA, hk] at h ⊢
      exact ih h

theorem lookupA_append_single_ne {α β : Type} [DecidableEq α] (l : List (α × β))
    (a a' : α) (b : β) (h : a' ≠ a) :
    lookupA (l ++ [(a, b)]) a' = lookupA l a' := by
  induction l with
  | nil => simp [lookupA, h]
  | cons kv t ih =>
    obtain ⟨k, v⟩ := kv
    by_cases hk : a' = k
    · simp [lookupA, hk]
    · simp [lookupA, hk, ih]

/-! Section: Lemmas: decimal digits -/

theorem digitChar_spec (d : Nat) (h : d < 10) :
    (digitChar d).isDigit = true ∧ digitVal (digitChar d) = d := by
  interval_cases d <;> exact ⟨by decide, by decide⟩

theorem digit_ne (c : Char) (h : c.isDigit = true) :
    c ≠ ']' ∧ c ≠ ',' ∧ c ≠ rbrace ∧ c ≠ 'n' ∧ c ≠ 't' ∧ c ≠ 'f' ∧ c ≠ '"' ∧
      c ≠ '[' ∧ c ≠ lbrace ∧ c ≠ '-' ∧ c ≠ ':' :=
  ⟨fun hh => absurd h (by subst hh; decide), fun hh => absurd h (by subst hh; decide),
   fun hh => absurd h (by subst hh; decide), fun hh => absurd h (by subst hh; decide),
   fun hh => absurd h (by subst hh; decide), fun hh => absurd h (by subst hh; decide),
   fun hh => absurd h (by subst hh; decide), fun hh => absurd h (by subst hh; decide),
   fun hh => absurd h (by subst hh; decide), fun hh => absurd h (by subst hh; decide),
   fun hh => absurd h (by subst hh; decide)⟩

theorem natChars_spec : ∀ fuel n : Nat, n < fuel →
    (∀ c ∈ natChars fuel n, c.isDigit = true) ∧
    (∀ acc, (natChars fuel n).foldl (fun a c => 10 * a + digitVal c) acc
      = acc * 10 ^ (natChars fuel n).length + n) := by
  intro fuel
  induction fuel with
  | zero => intro n hn; omega
  | succ fuel ih =>
    intro n hn
    by_cases h0 : n = 0
    · subst h0; simp [natChars]
    · have hdiv : n / 10 < fuel := by omega
      obtain ⟨ihd, ihv⟩ := ih (n / 10) hdiv
      have hstep : natChars (fuel + 1) n
          = natChars fuel (n / 10) ++ [digitChar (n % 10)] := by
        simp [natChars, h0]
      constructor
      · intro c hc
        rw [hstep] at hc
        rcases List.mem_append.mp hc with hc | hc
        · exact ihd c hc
        · simp at hc
          subst hc
          exact (digitChar_spec (n % 10) (by omega)).1
      · intro acc
        rw [hstep]
        rw [List.foldl_append, ihv acc]
        simp [List.length_append, (digitChar_spec (n % 10) (by omega)).2]
        ring_nf
        omega

theorem printNat_digits (n : Nat) :
    printNat n ≠ [] ∧ ∀ c ∈ printNat n, c.isDigit = true := by
  by_cases h0 : n = 0
  · subst h0
    refine ⟨by simp [printNat], ?_⟩
    intro c hc
    simp [printNat] at hc
    subst hc; decide
  · have hspec := natChars_spec (n + 1) n (by omega)
    refine ⟨?_, ?_⟩
    · have : natChars (n + 1) n = natChars n (n / 10) ++ [digitChar (n % 10)] := by
        simp [natChars, h0]
      simp [printNat, h0, this]
    · intro c hc
      simp [printNat, h0] at hc
      exact hspec.1 c hc

theorem parseDigits_digits (ds : List Char) (h : ∀ c ∈ ds, c.isDigit = true) :
    ∀ rest acc, parseDigits (ds ++ rest) acc
      = parseDigits rest (ds.foldl (fun a c => 10 * a + digitVal c) acc) := by
  induction ds with
  | nil => intro rest acc; simp
  | cons c t ih =>
    intro rest acc
    have hc : c.isDigit = true := h c (by simp)
    simp only [List.cons_append, parseDigits, hc, if_true, List.foldl_cons]
    exact ih (fun d hd => h d (by simp [hd])) rest _

theorem parseDigits_stop (rest : List Char) (h : digitStart rest = false) (acc : Nat) :
    parseDigits rest acc = (acc, rest) := by
  cases rest with
  | nil => simp [parseDigits]
  | cons c t =>
    simp [digitStart] at h
    simp [parseDigits, h]

theorem parseNatNum_printNat (n : Nat) (rest : List Char)
    (h : digitStart rest = false) :
    parseNatNum (printNat n ++ rest) = some (n, rest) := by
  obtain ⟨hne, hdig⟩ := printNat_digits n
  cases hA : printNat n with
  | nil => exact absurd hA hne
  | cons c t =>
    have hc : c.isDigit = true := hdig c (by rw [hA]; simp)
    have ht : ∀ d ∈ t, d.isDigit = true := fun d hd => hdig d (by rw [hA]; simp [hd])
    have hval : t.foldl (fun a c => 10 * a + digitVal c) (digitVal c) = n := by
      by_cases h0 : n = 0
      · subst h0
        have : printNat 0 = [digitChar 0] := by simp [printNat]
        rw [this] at hA
        injection hA with h1 h2
        subst h1; subst h2
        simp
        decide
      · have hspec := (natChars_spec (n + 1) n (by omega)).2 0
        have hpn : printNat n = natChars (n + 1) n := by simp [printNat, h0]
        rw [hpn] at hA
        rw [hA] at hspec
        simpa using hspec
    simp only [List.cons_append, parseNatNum, hc, if_true]
    rw [parseDigits_digits t ht rest (digitVal c), parseDigits_stop rest h, hval]

/-! Section: Lemmas: string escaping -/

theorem charsBodyAux_escape (s : List Char) : ∀ (acc rest : List Char),
    charsBodyAux false acc (escapeChars s ++ '"' :: rest)
      = some (acc.reverse ++ s, rest) := by
  induction s with
  | nil => intro acc rest; simp [escapeChars, charsBodyAux]
  | cons c t ih =>
    intro acc rest
    by_cases hc : c = '"' ∨ c = '\\'
    · have he : escapeChars (c :: t) = '\\' :: c :: escapeChars t := by
        simp [escapeChars, hc]
      rw [he, List.cons_append, List.cons_append]
      have hbs : ('\\' : Char) ≠ '"' := by decide
      simp only [charsBodyAux, hbs, if_false, if_pos rfl, hc, if_true, ih]
      simp
    · have h1 : c ≠ '"' := fun hh => hc (Or.inl hh)
      have h2 : c ≠ '\\' := fun hh => hc (Or.inr hh)
      have he : escapeChars (c :: t) = c :: escapeChars t := by
        simp [escapeChars, hc]
      rw [he, List.cons_append]
      simp only [charsBodyAux, h1, h2, if_false, ih]
      simp

theorem charsBody_escape (s : List Char) (rest : List Char) :
    charsBody (escapeChars s ++ '"' :: rest) = some (s, rest) := by
  simpa [charsBody] using charsBodyAux_escape s [] rest

/-! Section: Lemmas: heads of rendered values -/

theorem printInt_head (i : Int) :
    ∃ c t, printInt i = c :: t ∧ (c.isDigit = true ∨ c = '-') := by
  by_cases hi : i < 0
  · exact ⟨'-', printNat i.natAbs, by simp [printInt, hi], Or.inr rfl⟩
  · obtain ⟨hne, hdig⟩ := printNat_digits i.natAbs
    cases hA : printNat i.natAbs with
    | nil => exact absurd hA hne
    | cons c t =>
      refine ⟨c, t, by simp [printInt, hi, hA], Or.inl ?_⟩
      exact hdig c (by rw [hA]; simp)

theorem printJson_head (v : Json) :
    ∃ c t, printJson v = c :: t ∧ c ≠ ']' ∧ c ≠ ',' ∧ c ≠ rbrace := by
  have hd3 : ∀ c : Char, c.isDigit = true → c ≠ ']' ∧ c ≠ ',' ∧ c ≠ rbrace :=
    fun c hd => ⟨(digit_ne c hd).1, (digit_ne c hd).2.1, (digit_ne c hd).2.2.1⟩
  cases v with
  | num i =>
    obtain ⟨c, t, hct, hc⟩ := printInt_head i
    refine ⟨c, t, by simp [printJson, hct], ?_⟩
    rcases hc with hdig | rfl
    · exact hd3 c hdig
    · refine ⟨?_, ?_, ?_⟩ <;> decide
  | arr xs =>
    refine ⟨'[', _, rfl, ?_, ?_, ?_⟩ <;> decide
  | obj fs =>
    refine ⟨lbrace, _, rfl, ?_, ?_, ?_⟩ <;> decide
  | str s =>
    refine ⟨'"', _, rfl, ?_, ?_, ?_⟩ <;> decide
  | null =>
    refine ⟨'n', _, rfl, ?_, ?_, ?_⟩ <;> decide
  | bool b =>
    cases b
    · refine ⟨'f', _, rfl, ?_, ?_, ?_⟩ <;> decide
    · refine ⟨'t', _, rfl, ?_, ?_, ?_⟩ <;> decide

theorem digitStart_printITail (xs : List Json) (rest : List Char) :
    digitStart (printITail xs ++ ']' :: rest) = false := by
  cases xs with
  | nil => rfl
  | cons x t => rfl

theorem digitStart_printFTail (fs : List (String × Json)) (rest : List Char) :
    digitStart (printFTail fs ++ rbrace :: rest) = false := by
  cases fs with
  | nil => rfl
  | cons f t =>
    obtain ⟨k, v⟩ := f
    rfl

/-! Section: Lemmas: size bounds -/

theorem sizeJ_pos (v : Json) : 1 ≤ sizeJ v := by
  cases v <;> simp [sizeJ]

theorem sizeL_pos (xs : List Json) : 1 ≤ sizeL xs := by
  cases xs with
  | nil => simp [sizeL]
  | cons x t => simp only [sizeL]; omega

theorem sizeF_pos (fs : List (String × Json)) : 1 ≤ sizeF fs := by
  cases fs with
  | nil => simp [sizeF]
  | cons f t => obtain ⟨k, v⟩ := f; simp only [sizeF]; omega

theorem printNat_ne_nil (n : Nat) : printNat n ≠ [] := (printNat_digits n).1

theorem printInt_length_pos (i : Int) : 1 ≤ (printInt i).length := by
  obtain ⟨c, t, hct, _⟩ := printInt_head i
  rw [hct]; simp

theorem size_le_twice_len : ∀ bound : Nat,
    (∀ v : Json, sizeJ v ≤ bound → sizeJ v ≤ 2 * (printJson v).length) ∧
    (∀ xs : List Json, sizeL xs ≤ bound →
      sizeL xs ≤ 2 * (printItems xs).length + 2 ∧
      sizeL xs ≤ 2 * (printITail xs).length + 1) ∧
    (∀ fs : List (String × Json), sizeF fs ≤ bound →
      sizeF fs ≤ 2 * (printFields fs).length + 2 ∧
      sizeF fs ≤ 2 * (printFTail fs).length + 1) := by
  intro bound
  induction bound with
  | zero =>
    refine ⟨fun v hv => ?_, fun xs hxs => ?_, fun fs hfs => ?_⟩
    · exact absurd hv (by have := sizeJ_pos v; omega)
    · exact absurd hxs (by have := sizeL_pos xs; omega)
    · exact absurd hfs (by have := sizeF_pos fs; omega)
  | succ bound ih =>
    obtain ⟨ihv, ihl, ihf⟩ := ih
    refine ⟨fun v hv => ?_, fun xs hxs => ?_, fun fs hfs => ?_⟩
    · cases v with
      | null => simp [sizeJ, printJson, nullChars]
      | bool b => cases b <;> simp [sizeJ, printJson, trueChars, falseChars]
      | num i =>
        have := printInt_length_pos i
        simp only [sizeJ, printJson]
        omega
      | str s => simp only [sizeJ, printJson, List.length_cons, List.length_append]; omega
      | arr xs =>
        have hxs : sizeL xs ≤ bound := by
          have := sizeL_pos xs
          simp only [sizeJ] at hv
          omega
        have := (ihl xs hxs).1
        simp only [sizeJ, printJson, List.length_cons, List.length_append]
        simp at this ⊢
        omega
      | obj fs =>
        have hfs : sizeF fs ≤ bound := by
          have := sizeF_pos fs
          simp only [sizeJ] at hv
          omega
        have := (ihf fs hfs).1
        simp only [sizeJ, printJson, List.length_cons, List.length_append]
        simp at this ⊢
        omega
    · cases xs with
      | nil => simp [sizeL, printItems, printITail]
      | cons x t =>
        have hx : sizeJ x ≤ bound := by
          have := sizeJ_pos x; have := sizeL_pos t
          simp only [sizeL] at hxs
          omega
        have ht : sizeL t ≤ bound := by
          have := sizeJ_pos x; have := sizeL_pos t
          simp only [sizeL] at hxs
          omega
        have h1 := ihv x hx
        have h2 := (ihl t ht).2
        simp only [sizeL, printItems, printITail, List.length_append, List.length_cons]
        omega
    · cases fs with
      | nil => simp [sizeF, printFields, printFTail]
      | cons f t =>
        obtain ⟨k, v⟩ := f
        have hx : sizeJ v ≤ bound := by
          have := sizeJ_pos v; have := sizeF_pos t
          simp only [sizeF] at hfs
          omega
        have ht : sizeF t ≤ bound := by
          have := sizeJ_pos v; have := sizeF_pos t
          simp only [sizeF] at hfs
          omega
        have h1 := ihv v hx
        have h2 := (ihf t ht).2
        simp only [sizeF, printFields, printFTail, List.length_append, List.length_cons]
        omega

/-! Section: Lemmas: the parser inverts the serializer -/

theorem stringMkData (s : String) : String.mk s.data = s := rfl

theorem parseVal_dash (fuel : Nat) (r : List Char) :
    parseVal (fuel + 1) ('-' :: r)
      = match parseNatNum r with
        | some (m, r2) => some (Json.num (-(m : Int)), r2)
        | none => none := by
  simp [parseVal, lbrace]

theorem parseVal_digitHead (fuel : Nat) (c : Char) (r : List Char)
    (h : c.isDigit = true) :
    parseVal (fuel + 1) (c :: r)
      = match parseNatNum (c :: r) with
        | some (m, r2) => some (Json.num (m : Int), r2)
        | none => none := by
  obtain ⟨-, -, -, hn, ht, hf, hq, hb, hB, hm, -⟩ := digit_ne c h
  simp [parseVal, hn, ht, hf, hq, hb, hB, hm, h]

theorem parseVal_printInt (i : Int) (fuel : Nat) (rest : List Char)
    (h : digitStart rest = false) :
    parseVal (fuel + 1) (printInt i ++ rest) = some (Json.num i, rest) := by
  by_cases hi : i < 0
  · have hp : printInt i = '-' :: printNat i.natAbs := by simp [printInt, hi]
    rw [hp, List.cons_append, parseVal_dash, parseNatNum_printNat _ rest h]
    have habs : -((i.natAbs : Int)) = i := by omega
    have hred : (match (some (i.natAbs, rest) : Option (Nat × List Char)) with
        | some (m, r2) => some (Json.num (-(m : Int)), r2)
        | none => none) = some (Json.num (-((i.natAbs : Int))), rest) := rfl
    rw [hred, habs]
  · have hp : printInt i = printNat i.natAbs := by simp [printInt, hi]
    obtain ⟨hne, hdig⟩ := printNat_digits i.natAbs
    cases hA : printNat i.natAbs with
    | nil => exact absurd hA hne
    | cons c t =>
      have hc : c.isDigit = true := hdig c (by rw [hA]; simp)
      rw [hp, hA, List.cons_append, parseVal_digitHead fuel c _ hc, ← List.cons_append,
        ← hA, parseNatNum_printNat _ rest h]
      have habs : ((i.natAbs : Int)) = i := by omega
      have hred : (match (some (i.natAbs, rest) : Option (Nat × List Char)) with
        | some (m, r2) => some (Json.num ((m : Int)), r2)
        | none => none) = some (Json.num ((i.natAbs : Int)), rest) := rfl
      rw [hred, habs]

theorem parse_print : ∀ fuel : Nat,
    (∀ v rest, sizeJ v ≤ fuel → digitStart rest = false →
      parseVal fuel (printJson v ++ rest) = some (v, rest)) ∧
    (∀ xs rest, sizeL xs ≤ fuel →
      parseArrItems fuel (printItems xs ++ ']' :: rest) = some (Json.arr xs, rest)) ∧
    (∀ xs rest, sizeL xs ≤ fuel →
      parseArrTail fuel (printITail xs ++ ']' :: rest) = some (xs, rest)) ∧
    (∀ fs rest, sizeF fs ≤ fuel →
      parseObjItems fuel (printFields fs ++ rbrace :: rest) = some (Json.obj fs, rest)) ∧
    (∀ fs rest, sizeF fs ≤ fuel →
      parseObjTail fuel (printFTail fs ++ rbrace :: rest) = some (fs, rest)) ∧
    (∀ (k : String) (v : Json) rest, sizeJ v < fuel → digitStart rest = false →
      parseMember fuel
        (('"' :: (escapeChars k.data ++ ('"' :: ':' :: printJson v))) ++ rest)
        = some ((k, v), rest)) := by
  intro fuel
  induction fuel with
  | zero =>
    exact ⟨fun v rest hv _ => absurd hv (by have := sizeJ_pos v; omega),
           fun xs rest hx => absurd hx (by have := sizeL_pos xs; omega),
           fun xs rest hx => absurd hx (by have := sizeL_pos xs; omega),
           fun fs rest hf => absurd hf (by have := sizeF_pos fs; omega),
           fun fs rest hf => absurd hf (by have := sizeF_pos fs; omega),
           fun k v rest hv _ => absurd hv (by omega)⟩
  | succ fuel ih =>
    obtain ⟨ihV, ihAI, ihAT, ihOI, ihOT, ihM⟩ := ih
    refine ⟨?_, ?_, ?_, ?_, ?_, ?_⟩
    · intro v rest hv hrest
      cases v with
      | null => simp [printJson, nullChars, parseVal, expectLit]
      | bool b => cases b <;> simp [printJson, trueChars, falseChars, parseVal, expectLit]
      | num i =>
        have : printJson (Json.num i) = printInt i := rfl
        rw [this]
        exact parseVal_printInt i fuel rest hrest
      | str s =>
        have harg : printJson (Json.str s) ++ rest
            = '"' :: (escapeChars s.data ++ ('"' :: rest)) := by
          simp [printJson]
        rw [harg]
        simp [parseVal, charsBody_escape, stringMkData]
      | arr xs =>
        have harg : printJson (Json.arr xs) ++ rest
            = '[' :: (printItems xs ++ (']' :: rest)) := by
          simp [printJson]
        rw [harg]
        have hstep : parseVal (fuel + 1) ('[' :: (printItems xs ++ (']' :: rest)))
            = parseArrItems fuel (printItems xs ++ (']' :: rest)) := by
          simp [parseVal, lbrace]
        rw [hstep]
        refine ihAI xs rest ?_
        simp only [sizeJ] at hv
        omega
      | obj fs =>
        have harg : printJson (Json.obj fs) ++ rest
            = lbrace :: (printFields fs ++ (rbrace :: rest)) := by
          simp [printJson]
        rw [harg]
        have hstep : parseVal (fuel + 1) (lbrace :: (printFields fs ++ (rbrace :: rest)))
            = parseObjItems fuel (printFields fs ++ (rbrace :: rest)) := by
          simp [parseVal, lbrace]
        rw [hstep]
        refine ihOI fs rest ?_
        simp only [sizeJ] at hv
        omega
    · intro xs rest hx
      cases xs with
      | nil => simp [printItems, parseArrItems]
      | cons x t =>
        obtain ⟨c, ct, hct, hc1, hc2, hc3⟩ := printJson_head x
        have hsx : sizeJ x ≤ fuel := by
          have := sizeL_pos t
          simp only [sizeL] at hx
          omega
        have hst : sizeL t ≤ fuel := by
          have := sizeJ_pos x
          simp only [sizeL] at hx
          omega
        have hv : parseVal fuel (printJson x ++ (printITail t ++ ']' :: rest))
            = some (x, printITail t ++ ']' :: rest) :=
          ihV x _ hsx (digitStart_printITail t rest)
        have htl : parseArrTail fuel (printITail t ++ ']' :: rest) = some (t, rest) :=
          ihAT t rest hst
        have harr : printItems (x :: t) ++ ']' :: rest
            = c :: (ct ++ (printITail t ++ ']' :: rest)) := by
          simp [printItems, hct]
        rw [harr]
        simp only [parseArrItems, if_neg hc1]
        have hback : c :: (ct ++ (printITail t ++ ']' :: rest))
            = printJson x ++ (printITail t ++ ']' :: rest) := by
          rw [hct]; simp
        rw [hback]
        simp [hv, htl]
    · intro xs rest hx
      cases xs with
      | nil => simp [printITail, parseArrTail]
      | cons x t =>
        have hsx : sizeJ x ≤ fuel := by
          have := sizeL_pos t
          simp only [sizeL] at hx
          omega
        have hst : sizeL t ≤ fuel := by
          have := sizeJ_pos x
          simp only [sizeL] at hx
          omega
        have hv : parseVal fuel (printJson x ++ (printITail t ++ ']' :: rest))
            = some (x, printITail t ++ ']' :: rest) :=
          ihV x _ hsx (digitStart_printITail t rest)
        have htl : parseArrTail fuel (printITail t ++ ']' :: rest) = some (t, rest) :=
          ihAT t rest hst
        have harr : printITail (x :: t) ++ ']' :: rest
            = ',' :: (printJson x ++ (printITail t ++ ']' :: rest)) := by
          simp [printITail]
        rw [harr]
        simp [parseArrTail, hv, htl]
    · intro fs rest hf
      cases fs with
      | nil => simp [printFields, parseObjItems]
      | cons f t =>
        obtain ⟨k, v⟩ := f
        have hsv : sizeJ v < fuel := by
          have := sizeF_pos t
          simp only [sizeF] at hf
          omega
        have hst : sizeF t ≤ fuel := by
          have := sizeJ_pos v
          simp only [sizeF] at hf
          omega
        have hm : parseMember fuel
            (('"' :: (escapeChars k.data ++ ('"' :: ':' :: printJson v)))
              ++ (printFTail t ++ rbrace :: rest))
            = some ((k, v), printFTail t ++ rbrace :: rest) :=
          ihM k v _ hsv (digitStart_printFTail t rest)
        have htl : parseObjTail fuel (printFTail t ++ rbrace :: rest) = some (t, rest) :=
          ihOT t rest hst
        have harr : printFields ((k, v) :: t) ++ rbrace :: rest
            = '"' :: ((escapeChars k.data ++ ('"' :: ':' :: printJson v))
              ++ (printFTail t ++ rbrace :: rest)) := by
          simp [printFields]
        rw [harr]
        have hq : ('"' : Char) ≠ rbrace := by decide
        simp only [List.cons_append, List.append_assoc] at hm
        simp only [parseObjItems, if_neg hq]
        simp [hm, htl]
    · intro fs rest hf
      cases fs with
      | nil => simp [printFTail, parseObjTail]
      | cons f t =>
        obtain ⟨k, v⟩ := f
        have hsv : sizeJ v < fuel := by
          have := sizeF_pos t
          simp only [sizeF] at hf
          omega
        have hst : sizeF t ≤ fuel := by
          have := sizeJ_pos v
          simp only [sizeF] at hf
          omega
        have hm : parseMember fuel
            (('"' :: (escapeChars k.data ++ ('"' :: ':' :: printJson v)))
              ++ (printFTail t ++ rbrace :: rest))
            = some ((k, v), printFTail t ++ rbrace :: rest) :=
          ihM k v _ hsv (digitStart_printFTail t rest)
        have htl : parseObjTail fuel (printFTail t ++ rbrace :: rest) = some (t, rest) :=
          ihOT t rest hst
        have harr : printFTail ((k, v) :: t) ++ rbrace :: rest
            = ',' :: (('"' :: (escapeChars k.data ++ ('"' :: ':' :: printJson v)))
              ++ (printFTail t ++ rbrace :: rest)) := by
          simp [printFTail]
        rw [harr]
        simp only [List.cons_append, List.append_assoc] at hm
        have hcr : (',' : Char) ≠ rbrace := by decide
        simp [parseObjTail, hm, htl, hcr]
    · intro k v rest hv hrest
      have hsv : sizeJ v ≤ fuel := by omega
      have harg : ('"' :: (escapeChars k.data ++ ('"' :: ':' :: printJson v))) ++ rest
          = '"' :: (escapeChars k.data ++ ('"' :: (':' :: (printJson v ++ rest)))) := by
        simp
      rw [harg]
      have hpv : parseVal fuel (printJson v ++ rest) = some (v, rest) := ihV v rest hsv hrest
      simp [parseMember, charsBody_escape, hpv, stringMkData]

theorem loads_dumps (v : Json) : loads (dumps v) = some v := by
  have h1 : sizeJ v ≤ 2 * (printJson v).length := (size_le_twice_len (sizeJ v)).1 v le_rfl
  have h2 := (parse_print (2 * (printJson v).length + 2)).1 v [] (by omega) rfl
  rw [List.append_nil] at h2
  have hdata : (dumps v).data = printJson v := rfl
  simp [loads, hdata, h2]

/-! Section: Lemmas: conversation-key and conversations round trip -/

theorem mapOpt_num_toInt (l : List Int) :
    mapOpt (fun e => match e with | Json.num i => some i | _ => none)
      (l.map Json.num) = some l := by
  induction l with
  | nil => simp [mapOpt]
  | cons a t ih => simp [mapOpt, ih]

theorem decodeConvKey_dumps (k : ConvKey) :
    decodeConvKey (dumps (Json.arr (k.map Json.num))) = some k := by
  simp [decodeConvKey, loads_dumps, mapOpt_num_toInt]

theorem mapOpt_entries (states : HandlerMap) :
    mapOpt (fun (ks : String × Json) =>
        match decodeConvKey ks.1 with
        | some key => some (key, ks.2)
        | none => none)
      (states.map fun ks => (dumps (Json.arr (ks.1.map Json.num)), ks.2))
      = some states := by
  induction states with
  | nil => simp [mapOpt]
  | cons a t ih =>
    obtain ⟨key, st⟩ := a
    simp [mapOpt, decodeConvKey_dumps, ih]

theorem mapOpt_handlers (m : ConvData) :
    mapOpt (fun hs => match hs.2 with
        | Json.obj states =>
          (mapOpt (fun (ks : String × Json) =>
            match decodeConvKey ks.1 with
            | some key => some (key, ks.2)
            | none => none) states).map fun mm => (hs.1, mm)
        | _ => none)
      (m.map fun hs => (hs.1, Json.obj (hs.2.map fun ks =>
        (dumps (Json.arr (ks.1.map Json.num)), ks.2))))
      = some m := by
  induction m with
  | nil => simp [mapOpt]
  | cons a t ih =>
    obtain ⟨name, states⟩ := a
    simp [mapOpt, mapOpt_entries, ih]

theorem decode_encode_conversations (m : ConvData) :
    decode_conversations_from_json (encode_conversations_to_json m) = some m := by
  rw [encode_conversations_to_json, decode_conversations_from_json.eq_def]
  rw [loads_dumps]
  exact mapOpt_handlers m

/-! Section: Lemmas: DictPersistence operations in normal form -/

theorem setdefaultA_found {α β : Type} [DecidableEq α] (l : List (α × β)) (a : α)
    (b v : β) (h : lookupA l a = some v) : setdefaultA l a b = (v, l) := by
  simp [setdefaultA, h]

theorem setdefaultA_missing {α β : Type} [DecidableEq α] (l : List (α × β)) (a : α)
    (b : β) (h : lookupA l a = none) : setdefaultA l a b = (b, l ++ [(a, b)]) := by
  simp [setdefaultA, h]

theorem getUserData_eq (p : DictPersistence) :
    p.getUserData
      = (p.user_data.getD [], { p with user_data := some (p.user_data.getD []) }) := by
  cases hu : p.user_data with
  | none => simp [DictPersistence.getUserData, hu]
  | some s =>
    by_cases h : s = []
    · subst h; simp [DictPersistence.getUserData, hu]
    · simp [DictPersistence.getUserData, hu, h]

theorem getChatData_eq (p : DictPersistence) :
    p.getChatData
      = (p.chat_data.getD [], { p with chat_data := some (p.chat_data.getD []) }) := by
  cases hu : p.chat_data with
  | none => simp [DictPersistence.getChatData, hu]
  | some s =>
    by_cases h : s = []
    · subst h; simp [DictPersistence.getChatData, hu]
    · simp [DictPersistence.getChatData, hu, h]

theorem getBotData_eq (p : DictPersistence) :
    p.getBotData
      = (p.bot_data.getD [], { p with bot_data := some (p.bot_data.getD []) }) := by
  cases hu : p.bot_data with
  | none => simp [DictPersistence.getBotData, hu]
  | some s =>
    by_cases h : s = []
    · subst h; simp [DictPersistence.getBotData, hu]
    · simp [DictPersistence.getBotData, hu, h]

theorem getConversations_eq (p : DictPersistence) (name : String) :
    p.getConversations name
      = ((lookupA (p.conversations.getD []) name).getD [],
         { p with conversations := some (p.conversations.getD []) }) := by
  cases hu : p.conversations with
  | none => simp [DictPersistence.getConversations, hu]
  | some s =>
    by_cases h : s = []
    · subst h; simp [DictPersistence.getConversations, hu]
    · simp [DictPersistence.getConversations, hu, h]

theorem updateConversation_eq (p : DictPersistence) (name : String) (key : ConvKey)
    (s : Json) :
    p.updateConversation name key s
      = (if (lookupA ((setdefaultA (p.conversations.getD []) name []).1) key).getD
            Json.null = s then
          { p with conversations := some ((setdefaultA (p.conversations.getD []) name []).2) }
        else
          { p with
            conversations := some (insertA ((setdefaultA (p.conversations.getD []) name []).2)
              name (insertA ((setdefaultA (p.conversations.getD []) name []).1) key s)),
            conversations_json := none }) := by
  cases hu : p.conversations with
  | none => simp [DictPersistence.updateConversation, hu]
  | some c =>
    by_cases h : c = []
    · subst h; simp [DictPersistence.updateConversation, hu]
    · simp [DictPersistence.updateConversation, hu, h]

/-- The state written for a key by update_conversation can be read back,
except in the one corner where a terminal (None) state is written for a
key that has no entry: dict.get conflates the two and the method returns
without creating the entry. -/
theorem updateConversation_self (p : DictPersistence) (n : String) (k : ConvKey)
    (s : Json) (h : s ≠ Json.null ∨ p.convEntry n k ≠ none) :
    (p.updateConversation n k s).convEntry n k = some s := by
  rw [updateConversation_eq]
  cases hlook : lookupA (p.conversations.getD []) n with
  | none =>
    rw [setdefaultA_missing _ _ _ hlook]
    have hentry : p.convEntry n k = none := by
      simp [DictPersistence.convEntry, hlook, lookupA]
    have hs : s ≠ Json.null := by
      rcases h with hs | hne
      · exact hs
      · exact absurd hentry hne
    have hcond : (lookupA ([] : HandlerMap) k).getD Json.null ≠ s := by
      simp [lookupA]
      exact fun hh => hs hh.symm
    rw [if_neg hcond]
    simp [DictPersistence.convEntry, lookupA_insertA_self]
  | some hm =>
    rw [setdefaultA_found _ _ _ _ hlook]
    cases hk : lookupA hm k with
    | none =>
      have hentry : p.convEntry n k = none := by
        simp [DictPersistence.convEntry, hlook, hk]
      have hs : s ≠ Json.null := by
        rcases h with hs | hne
        · exact hs
        · exact absurd hentry hne
      have hcond : ¬((none : Option Json).getD Json.null = s) := by
        simp
        exact fun hh => hs hh.symm
      rw [if_neg hcond]
      simp [DictPersistence.convEntry, lookupA_insertA_self]
    | some v =>
      by_cases hv : v = s
      · subst hv
        rw [if_pos (show (some v).getD Json.null = v from rfl)]
        simp [DictPersistence.convEntry, hlook, hk]
      · have hcond : ¬((some v).getD Json.null = s) := by
          simpa using hv
        rw [if_neg hcond]
        simp [DictPersistence.convEntry, lookupA_insertA_self]

/-- update_conversation leaves the entry of every other key under the
same handler name unchanged. -/
theorem updateConversation_frame_key (p : DictPersistence) (n : String)
    (k1 k2 : ConvKey) (s : Json) (h : k1 ≠ k2) :
    (p.updateConversation n k1 s).convEntry n k2 = p.convEntry n k2 := by
  rw [updateConversation_eq]
  have hk2 : ∀ hm : HandlerMap, lookupA (insertA hm k1 s) k2 = lookupA hm k2 :=
    fun hm => lookupA_insertA_ne hm k1 k2 s (fun hh => h hh.symm)
  cases hlook : lookupA (p.conversations.getD []) n with
  | none =>
    rw [setdefaultA_missing _ _ _ hlook]
    by_cases hcond : (lookupA ([] : HandlerMap) k1).getD Json.null = s
    · rw [if_pos hcond]
      simp [DictPersistence.convEntry, hlook, lookupA_append_single_self _ _ _ hlook,
        lookupA]
    · rw [if_neg hcond]
      simp [DictPersistence.convEntry, hlook, lookupA_insertA_self, hk2, lookupA]
  | some hm =>
    rw [setdefaultA_found _ _ _ _ hlook]
    by_cases hcond : (lookupA hm k1).getD Json.null = s
    · rw [if_pos hcond]
      simp [DictPersistence.convEntry, hlook]
    · rw [if_neg hcond]
      simp [DictPersistence.convEntry, hlook, lookupA_insertA_self, hk2]

/-- update_conversation leaves every entry under every other handler
name unchanged. -/
theorem updateConversation_frame_name (p : DictPersistence) (n m : String)
    (k1 k : ConvKey) (s : Json) (h : m ≠ n) :
    (p.updateConversation n k1 s).convEntry m k = p.convEntry m k := by
  rw [updateConversation_eq]
  cases hlook : lookupA (p.conversations.getD []) n with
  | none =>
    rw [setdefaultA_missing _ _ _ hlook]
    have happ : lookupA ((p.conversations.getD []) ++ [(n, ([] : HandlerMap))]) m
        = lookupA (p.conversations.getD []) m :=
      lookupA_append_single_ne _ _ _ _ h
    by_cases hcond : (lookupA ([] : HandlerMap) k1).getD Json.null = s
    · rw [if_pos hcond]
      simp [DictPersistence.convEntry, happ]
    · rw [if_neg hcond]
      have hins : lookupA (insertA ((p.conversations.getD []) ++ [(n, ([] : HandlerMap))])
          n (insertA ([] : HandlerMap) k1 s)) m
          = lookupA ((p.conversations.getD []) ++ [(n, ([] : HandlerMap))]) m :=
        lookupA_insertA_ne _ _ _ _ h
      simp [DictPersistence.convEntry, hins, happ]
  | some hm =>
    rw [setdefaultA_found _ _ _ _ hlook]
    by_cases hcond : (lookupA hm k1).getD Json.null = s
    · rw [if_pos hcond]
      simp [DictPersistence.convEntry]
    · rw [if_neg hcond]
      have hins : lookupA (insertA (p.conversations.getD []) n (insertA hm k1 s)) m
          = lookupA (p.conversations.getD []) m :=
        lookupA_insertA_ne _ _ _ _ h
      simp [DictPersistence.convEntry, hins]

theorem updateUserData_self (p : DictPersistence) (uid : Int) (d : PyDict) :
    (p.updateUserData uid d).userEntry uid = some d := by
  unfold DictPersistence.updateUserData
  by_cases hcond : lookupA (p.user_data.getD []) uid = some d
  · simp [hcond, DictPersistence.userEntry]
  · simp [hcond, DictPersistence.userEntry, lookupA_insertA_self]

theorem updateUserData_frame (p : DictPersistence) (u1 u2 : Int) (d : PyDict)
    (h : u1 ≠ u2) : (p.updateUserData u1 d).userEntry u2 = p.userEntry u2 := by
  unfold DictPersistence.updateUserData
  by_cases hcond : lookupA (p.user_data.getD []) u1 = some d
  · simp [hcond, DictPersistence.userEntry]
  · simp [hcond, DictPersistence.userEntry,
      lookupA_insertA_ne _ _ _ _ (fun hh => h hh.symm)]

theorem updateChatData_self (p : DictPersistence) (cid : Int) (d : PyDict) :
    (p.updateChatData cid d).chatEntry cid = some d := by
  unfold DictPersistence.updateChatData
  by_cases hcond : lookupA (p.chat_data.getD []) cid = some d
  · simp [hcond, DictPersistence.chatEntry]
  · simp [hcond, DictPersistence.chatEntry, lookupA_insertA_self]

theorem updateChatData_frame (p : DictPersistence) (c1 c2 : Int) (d : PyDict)
    (h : c1 ≠ c2) : (p.updateChatData c1 d).chatEntry c2 = p.chatEntry c2 := by
  unfold DictPersistence.updateChatData
  by_cases hcond : lookupA (p.chat_data.getD []) c1 = some d
  · simp [hcond, DictPersistence.chatEntry]
  · simp [hcond, DictPersistence.chatEntry,
      lookupA_insertA_ne _ _ _ _ (fun hh => h hh.symm)]

/-! Section: Lemmas: the constructor parts -/

theorem loadUserPart_ok (s : String) (p p' : DictPersistence)
    (h : loadUserPart s p = Except.ok p') :
    (s = "" ∧ p' = p) ∨
    (s ≠ "" ∧ ∃ d, decode_user_chat_data_from_json s = some d ∧
      p' = { p with user_data := some d, user_data_json := some s }) := by
  by_cases hs : s = ""
  · left
    simp [loadUserPart, hs] at h
    exact ⟨hs, h.symm⟩
  · right
    refine ⟨hs, ?_⟩
    simp only [loadUserPart, ne_eq, hs, not_false_iff, if_true] at h
    cases hd : decode_user_chat_data_from_json s with
    | none => rw [hd] at h; cases h
    | some d =>
      rw [hd] at h
      refine ⟨d, rfl, ?_⟩
      cases h
      rfl

theorem loadChatPart_ok (s : String) (p p' : DictPersistence)
    (h : loadChatPart s p = Except.ok p') :
    (s = "" ∧ p' = p) ∨
    (s ≠ "" ∧ ∃ d, decode_user_chat_data_from_json s = some d ∧
      p' = { p with chat_data := some d, chat_data_json := some s }) := by
  by_cases hs : s = ""
  · left
    simp [loadChatPart, hs] at h
    exact ⟨hs, h.symm⟩
  · right
    refine ⟨hs, ?_⟩
    simp only [loadChatPart, ne_eq, hs, not_false_iff, if_true] at h
    cases hd : decode_user_chat_data_from_json s with
    | none => rw [hd] at h; cases h
    | some d =>
      rw [hd] at h
      refine ⟨d, rfl, ?_⟩
      cases h
      rfl

theorem loadBotPart_ok (s : String) (p p' : DictPersistence)
    (h : loadBotPart s p = Except.ok p') :
    (s = "" ∧ p' = p) ∨
    (s ≠ "" ∧ ∃ d, decodeBotData s = some d ∧
      p' = { p with bot_data := some d, bot_data_json := some s }) := by
  by_cases hs : s = ""
  · left
    simp [loadBotPart, hs] at h
    exact ⟨hs, h.symm⟩
  · right
    refine ⟨hs, ?_⟩
    simp only [loadBotPart, ne_eq, hs, not_false_iff, if_true] at h
    cases hd : decodeBotData s with
    | none => rw [hd] at h; cases h
    | some d =>
      rw [hd] at h
      refine ⟨d, rfl, ?_⟩
      cases h
      rfl

theorem loadConvPart_ok (s : String) (p p' : DictPersistence)
    (h : loadConvPart s p = Except.ok p') :
    (s = "" ∧ p' = p) ∨
    (s ≠ "" ∧ ∃ d, decode_conversations_from_json s = some d ∧
      p' = { p with conversations := some d, conversations_json := some s }) := by
  by_cases hs : s = ""
  · left
    simp [loadConvPart, hs] at h
    exact ⟨hs, h.symm⟩
  · right
    refine ⟨hs, ?_⟩
    simp only [loadConvPart, ne_eq, hs, not_false_iff, if_true] at h
    cases hd : decode_conversations_from_json s with
    | none => rw [hd] at h; cases h
    | some d =>
      rw [hd] at h
      refine ⟨d, rfl, ?_⟩
      cases h
      rfl

theorem init_fields (u c b cv : String) (p : DictPersistence)
    (h : DictPersistence.init u c b cv = Except.ok p) :
    ((u = "" ∧ p.user_data = none ∧ p.user_data_json = none) ∨
     (u ≠ "" ∧ ∃ d, decode_user_chat_data_from_json u = some d ∧ p.user_data = some d ∧
       p.user_data_json = some u)) ∧
    ((c = "" ∧ p.chat_data = none ∧ p.chat_data_json = none) ∨
     (c ≠ "" ∧ ∃ d, decode_user_chat_data_from_json c = some d ∧ p.chat_data = some d ∧
       p.chat_data_json = some c)) ∧
    ((b = "" ∧ p.bot_data = none ∧ p.bot_data_json = none) ∨
     (b ≠ "" ∧ ∃ d, decodeBotData b = some d ∧ p.bot_data = some d ∧
       p.bot_data_json = some b)) ∧
    ((cv = "" ∧ p.conversations = none ∧ p.conversations_json = none) ∨
     (cv ≠ "" ∧ ∃ d, decode_conversations_from_json cv = some d ∧
       p.conversations = some d ∧ p.conversations_json = some cv)) := by
  unfold DictPersistence.init at h
  cases h1 : loadUserPart u ⟨none, none, none, none, none, none, none, none⟩ with
  | error e => rw [h1] at h; cases h
  | ok p1 =>
    rw [h1] at h
    dsimp only at h
    cases h2 : loadChatPart c p1 with
    | error e => rw [h2] at h; cases h
    | ok p2 =>
      rw [h2] at h
      dsimp only at h
      cases h3 : loadBotPart b p2 with
      | error e => rw [h3] at h; cases h
      | ok p3 =>
        rw [h3] at h
        dsimp only at h
        have s1 := loadUserPart_ok u _ p1 h1
        have s2 := loadChatPart_ok c p1 p2 h2
        have s3 := loadBotPart_ok b p2 p3 h3
        have s4 := loadConvPart_ok cv p3 p h
        rcases s4 with ⟨hcv, rfl⟩ | ⟨hcv, d4, hd4, rfl⟩ <;>
          rcases s3 with ⟨hb, rfl⟩ | ⟨hb, d3, hd3, rfl⟩ <;>
            rcases s2 with ⟨hc, rfl⟩ | ⟨hc, d2, hd2, rfl⟩ <;>
              rcases s1 with ⟨hu, rfl⟩ | ⟨hu, d1, hd1, rfl⟩ <;>
                refine ⟨?_, ?_, ?_, ?_⟩ <;>
                  simp_all

/-! Section: Lemmas: cache consistency preservation -/

theorem userConsistent_none (store : Option UserData) : UserConsistent store none :=
  fun _ hs => nomatch hs

theorem botConsistent_none (store : Option PyDict) : BotConsistent store none :=
  fun _ hs => nomatch hs

theorem convConsistent_none (store : Option ConvData) : ConvConsistent store none :=
  fun _ hs => nomatch hs

theorem userConsistent_getD (store : Option UserData) (cache : Option String)
    (h : UserConsistent store cache) : UserConsistent (some (store.getD [])) cache := by
  intro s hs
  obtain ⟨st, hst, hd⟩ := h s hs
  exact ⟨st, by rw [hst]; rfl, hd⟩

theorem botConsistent_getD (store : Option PyDict) (cache : Option String)
    (h : BotConsistent store cache) : BotConsistent (some (store.getD [])) cache := by
  intro s hs
  obtain ⟨st, hst, hd⟩ := h s hs
  exact ⟨st, by rw [hst]; rfl, hd⟩

theorem convConsistent_getD (store : Option ConvData) (cache : Option String)
    (h : ConvConsistent store cache) : ConvConsistent (some (store.getD [])) cache := by
  intro s hs
  obtain ⟨st, hst, d, hd, he⟩ := h s hs
  exact ⟨st, by rw [hst]; rfl, d, hd, he⟩

theorem convConsistent_setdefault (store : Option ConvData) (cache : Option String)
    (n : String) (h : ConvConsistent store cache) :
    ConvConsistent (some ((setdefaultA (store.getD []) n []).2)) cache := by
  intro s hs
  obtain ⟨st, hst, d, hd, hequiv⟩ := h s hs
  rw [hst]
  refine ⟨(setdefaultA st n []).2, rfl, d, hd, ?_⟩
  intro m
  cases hlook : lookupA st n with
  | some hm =>
    rw [setdefaultA_found _ _ _ _ hlook]
    exact hequiv m
  | none =>
    rw [setdefaultA_missing _ _ _ hlook]
    by_cases hmn : m = n
    · subst hmn
      rw [lookupA_append_single_self _ _ _ hlook, hequiv m, hlook]
      rfl
    · rw [lookupA_append_single_ne _ _ _ _ hmn]
      exact hequiv m

theorem consistent_init (u c b cv : String) (p : DictPersistence)
    (h : DictPersistence.init u c b cv = Except.ok p) : Consistent p := by
  obtain ⟨hu, hc, hb, hcv⟩ := init_fields u c b cv p h
  refine ⟨?_, ?_, ?_, ?_⟩
  · intro s hs
    rcases hu with ⟨-, -, hnone⟩ | ⟨-, d, hd, hstore, hcache⟩
    · rw [hnone] at hs; cases hs
    · rw [hcache] at hs
      injection hs with hs
      subst hs
      exact ⟨d, hstore, hd⟩
  · intro s hs
    rcases hc with ⟨-, -, hnone⟩ | ⟨-, d, hd, hstore, hcache⟩
    · rw [hnone] at hs; cases hs
    · rw [hcache] at hs
      injection hs with hs
      subst hs
      exact ⟨d, hstore, hd⟩
  · intro s hs
    rcases hb with ⟨-, -, hnone⟩ | ⟨-, d, hd, hstore, hcache⟩
    · rw [hnone] at hs; cases hs
    · rw [hcache] at hs
      injection hs with hs
      subst hs
      exact ⟨d, hstore, hd⟩
  · intro s hs
    rcases hcv with ⟨-, -, hnone⟩ | ⟨-, d, hd, hstore, hcache⟩
    · rw [hnone] at hs; cases hs
    · rw [hcache] at hs
      injection hs with hs
      subst hs
      exact ⟨d, hstore, d, hd, fun _ => rfl⟩

theorem consistent_updateUserData (p : DictPersistence) (uid : Int) (d : PyDict)
    (h : Consistent p) : Consistent (p.updateUserData uid d) := by
  obtain ⟨h1, h2, h3, h4⟩ := h
  simp only [DictPersistence.updateUserData]
  by_cases hcond : lookupA (p.user_data.getD []) uid = some d
  · rw [if_pos hcond]
    exact ⟨userConsistent_getD _ _ h1, h2, h3, h4⟩
  · rw [if_neg hcond]
    exact ⟨userConsistent_none _, h2, h3, h4⟩

theorem consistent_updateChatData (p : DictPersistence) (cid : Int) (d : PyDict)
    (h : Consistent p) : Consistent (p.updateChatData cid d) := by
  obtain ⟨h1, h2, h3, h4⟩ := h
  simp only [DictPersistence.updateChatData]
  by_cases hcond : lookupA (p.chat_data.getD []) cid = some d
  · rw [if_pos hcond]
    exact ⟨h1, userConsistent_getD _ _ h2, h3, h4⟩
  · rw [if_neg hcond]
    exact ⟨h1, userConsistent_none _, h3, h4⟩

theorem consistent_updateBotData (p : DictPersistence) (d : PyDict)
    (h : Consistent p) : Consistent (p.updateBotData d) := by
  obtain ⟨h1, h2, h3, h4⟩ := h
  unfold DictPersistence.updateBotData
  by_cases hcond : p.bot_data = some d
  · rw [if_pos hcond]
    exact ⟨h1, h2, h3, h4⟩
  · rw [if_neg hcond]
    exact ⟨h1, h2, botConsistent_none _, h4⟩

theorem consistent_updateConversation (p : DictPersistence) (n : String) (k : ConvKey)
    (s : Json) (h : Consistent p) : Consistent (p.updateConversation n k s) := by
  obtain ⟨h1, h2, h3, h4⟩ := h
  rw [updateConversation_eq]
  by_cases hcond :
      (lookupA ((setdefaultA (p.conversations.getD []) n []).1) k).getD Json.null = s
  · rw [if_pos hcond]
    exact ⟨h1, h2, h3, convConsistent_setdefault _ _ n h4⟩
  · rw [if_neg hcond]
    exact ⟨h1, h2, h3, convConsistent_none _⟩

theorem consistent_getUserData (p : DictPersistence) (h : Consistent p) :
    Consistent (p.getUserData).2 := by
  obtain ⟨h1, h2, h3, h4⟩ := h
  rw [getUserData_eq]
  exact ⟨userConsistent_getD _ _ h1, h2, h3, h4⟩

theorem consistent_getChatData (p : DictPersistence) (h : Consistent p) :
    Consistent (p.getChatData).2 := by
  obtain ⟨h1, h2, h3, h4⟩ := h
  rw [getChatData_eq]
  exact ⟨h1, userConsistent_getD _ _ h2, h3, h4⟩

theorem consistent_getBotData (p : DictPersistence) (h : Consistent p) :
    Consistent (p.getBotData).2 := by
  obtain ⟨h1, h2, h3, h4⟩ := h
  rw [getBotData_eq]
  exact ⟨h1, h2, botConsistent_getD _ _ h3, h4⟩

theorem consistent_getConversations (p : DictPersistence) (name : String)
    (h : Consistent p) : Consistent (p.getConversations name).2 := by
  obtain ⟨h1, h2, h3, h4⟩ := h
  rw [getConversations_eq]
  exact ⟨h1, h2, h3, convConsistent_getD _ _ h4⟩

/-! Section: Lemmas: reading the maps the load operations return -/

theorem convEntry_getConversations (p : DictPersistence) (n : String) (k : ConvKey) :
    lookupA ((p.getConversations n).1) k = p.convEntry n k := by
  rw [getConversations_eq]
  rfl

theorem userEntry_getUserData (p : DictPersistence) (uid : Int) :
    lookupA ((p.getUserData).1) uid = p.userEntry uid := by
  rw [getUserData_eq]
  rfl

theorem set_user_data_self (p : DictPersistence) (s0 : UserData)
    (h : p.user_data = some s0) : { p with user_data := some s0 } = p := by
  cases p
  simp only at h
  rw [← h]

theorem set_chat_data_self (p : DictPersistence) (s0 : UserData)
    (h : p.chat_data = some s0) : { p with chat_data := some s0 } = p := by
  cases p
  simp only at h
  rw [← h]

theorem set_conversations_self (p : DictPersistence) (s0 : ConvData)
    (h : p.conversations = some s0) : { p with conversations := some s0 } = p := by
  cases p
  simp only at h
  rw [← h]

/-! Section: The claims -/

/-- C1 (corrected).  The original claim says that once update_conversation
persists the terminal sentinel (new_state None) for a key K, a subsequent
get_conversations(n) no longer contains K.  The code instead writes the
None state for K like any other state, so K stays in the persisted map,
mapped to None.  Amended claim, proved here: when K has an entry,
persisting the terminal state leaves K in the map returned by
get_conversations(n), now mapped to the terminal sentinel None. -/
theorem c1_terminal_marks_null (p : DictPersistence) (n : String) (k : ConvKey)
    (h : p.convEntry n k ≠ none) :
    lookupA (((p.updateConversation n k Json.null).getConversations n).1) k
      = some Json.null := by
  rw [convEntry_getConversations]
  exact updateConversation_self p n k Json.null (Or.inr h)

/-- C1 counterexample to the original claim: drive a key to state 5 and
then to the terminal None; get_conversations still contains the key. -/
theorem c1_counterexample :
    lookupA ((((emptyP.updateConversation nameA [1] (Json.num 5)).updateConversation
      nameA [1] Json.null).getConversations nameA).1) [1] ≠ none := by
  decide

/-- C1 witness: the amended claim applied at the concrete two-step run. -/
theorem c1_witness :
    lookupA ((((emptyP.updateConversation nameA [1] (Json.num 5)).updateConversation
      nameA [1] Json.null).getConversations nameA).1) [1] = some Json.null :=
  c1_terminal_marks_null (emptyP.updateConversation nameA [1] (Json.num 5)) nameA [1]
    (by decide)

/-- C2 (confirmed).  Serializing a conversations map, whose keys are
tuples of ints and whose state values are JSON values, with
encode_conversations_to_json and decoding it back with
decode_conversations_from_json returns a map equal to the original: the
per-key nested serialization makes the composite tuple keys survive the
string-keyed wire format. -/
theorem c2_conversations_roundtrip (m : ConvData) :
    decode_conversations_from_json (encode_conversations_to_json m) = some m :=
  decode_encode_conversations m

/-- C3 (corrected).  A load immediately after an update for the same key
returns the just-written value, except in one corner the original claim
overlooks: update_conversation(n, K, None) on a key with no entry
compares dict.get's None miss result with the new state None, returns
early and never creates the entry, so get_conversations(n) does not map
K to None.  Amended claim, proved here: the conversation read-back holds
whenever the written state is not the terminal None or K already has an
entry; the user-data read-back holds unconditionally. -/
theorem c3_read_after_write (p : DictPersistence) (n : String) (k : ConvKey) (s : Json)
    (uid : Int) (d : PyDict) (hs : s ≠ Json.null ∨ p.convEntry n k ≠ none) :
    lookupA (((p.updateConversation n k s).getConversations n).1) k = some s ∧
    lookupA (((p.updateUserData uid d).getUserData).1) uid = some d := by
  constructor
  · rw [convEntry_getConversations]
    exact updateConversation_self p n k s hs
  · rw [userEntry_getUserData]
    exact updateUserData_self p uid d

/-- C3 counterexample to the original claim at s = None on an absent
key: after the update the returned map still has no entry for the key,
rather than mapping it to None. -/
theorem c3_counterexample :
    lookupA (((emptyP.updateConversation nameA [1] Json.null).getConversations
      nameA).1) [1] = none := by
  decide

/-- C3 witness: the amended claim applied at a concrete non-terminal
state and a concrete user-data write. -/
theorem c3_witness :
    lookupA (((emptyP.updateConversation nameA [1] (Json.num 5)).getConversations
      nameA).1) [1] = some (Json.num 5) ∧
    lookupA (((emptyP.updateUserData 7 wBad).getUserData).1) 7 = some wBad :=
  c3_read_after_write emptyP nameA [1] (Json.num 5) 7 wBad (Or.inl (by decide))

/-- C4 (confirmed).  When the supplied data is value-equal to the entry
currently stored for the key (for update_bot_data, to the whole stored
dict), each update operation returns the persistence state entirely
unchanged: stores and cached JSON strings are exactly as before. -/
theorem c4_value_equal_noop :
    (∀ (p : DictPersistence) (uid : Int) (d : PyDict), p.userEntry uid = some d →
      p.updateUserData uid d = p) ∧
    (∀ (p : DictPersistence) (cid : Int) (d : PyDict), p.chatEntry cid = some d →
      p.updateChatData cid d = p) ∧
    (∀ (p : DictPersistence) (d : PyDict), p.bot_data = some d →
      p.updateBotData d = p) ∧
    (∀ (p : DictPersistence) (n : String) (k : ConvKey) (s : Json),
      p.convEntry n k = some s → p.updateConversation n k s = p) := by
  refine ⟨?_, ?_, ?_, ?_⟩
  · intro p uid d h
    cases hu : p.user_data with
    | none =>
      rw [DictPersistence.userEntry, hu] at h
      simp [lookupA] at h
    | some s0 =>
      have hl : lookupA s0 uid = some d := by
        rw [DictPersistence.userEntry, hu] at h
        simpa using h
      simp only [DictPersistence.updateUserData, hu, Option.getD_some]
      rw [if_pos hl]
      exact set_user_data_self p s0 hu
  · intro p cid d h
    cases hu : p.chat_data with
    | none =>
      rw [DictPersistence.chatEntry, hu] at h
      simp [lookupA] at h
    | some s0 =>
      have hl : lookupA s0 cid = some d := by
        rw [DictPersistence.chatEntry, hu] at h
        simpa using h
      simp only [DictPersistence.updateChatData, hu, Option.getD_some]
      rw [if_pos hl]
      exact set_chat_data_self p s0 hu
  · intro p d h
    unfold DictPersistence.updateBotData
    rw [if_pos h]
  · intro p n k s h
    cases hcv : p.conversations with
    | none =>
      rw [DictPersistence.convEntry, hcv] at h
      simp [lookupA] at h
    | some c0 =>
      rw [DictPersistence.convEntry, hcv] at h
      simp only [Option.getD_some] at h
      cases hn : lookupA c0 n with
      | none =>
        rw [hn] at h
        simp [lookupA] at h
      | some hm =>
        rw [hn] at h
        simp only [Option.getD_some] at h
        rw [updateConversation_eq]
        simp only [hcv, Option.getD_some]
        rw [setdefaultA_found _ _ _ _ hn]
        rw [if_pos (by rw [h]; rfl)]
        exact set_conversations_self p c0 hcv

/-- C4 witness: each no-op update applied at the concrete state built
from the constructor fixtures. -/
theorem c4_witness :
    (wP.updateUserData 1 [(JKey.str ("a"), Json.num 5)] = wP) ∧
    (wP.updateChatData 1 [(JKey.str ("a"), Json.num 5)] = wP) ∧
    (wP.updateBotData [(JKey.str ("k"), Json.num 1)] = wP) ∧
    (wP.updateConversation nameN [1, 2] (Json.num 3) = wP) :=
  ⟨c4_value_equal_noop.1 wP 1 [(JKey.str ("a"), Json.num 5)] (by decide),
   c4_value_equal_noop.2.1 wP 1 [(JKey.str ("a"), Json.num 5)] (by decide),
   c4_value_equal_noop.2.2.1 wP [(JKey.str ("k"), Json.num 1)] (by decide),
   c4_value_equal_noop.2.2.2 wP nameN [1, 2] (Json.num 3) (by decide)⟩

/-- C5 (confirmed).  update_conversation for one key leaves the
persisted entry of every other key under the same handler name, and
every entry under every other handler name, unchanged; update_user_data
and update_chat_data likewise leave every other id's entry unchanged. -/
theorem c5_per_key_frame :
    (∀ (p : DictPersistence) (n : String) (k1 k2 : ConvKey) (s : Json), k1 ≠ k2 →
      (p.updateConversation n k1 s).convEntry n k2 = p.convEntry n k2) ∧
    (∀ (p : DictPersistence) (n m : String) (k1 k : ConvKey) (s : Json), m ≠ n →
      (p.updateConversation n k1 s).convEntry m k = p.convEntry m k) ∧
    (∀ (p : DictPersistence) (u1 u2 : Int) (d : PyDict), u1 ≠ u2 →
      (p.updateUserData u1 d).userEntry u2 = p.userEntry u2) ∧
    (∀ (p : DictPersistence) (c1 c2 : Int) (d : PyDict), c1 ≠ c2 →
      (p.updateChatData c1 d).chatEntry c2 = p.chatEntry c2) :=
  ⟨updateConversation_frame_key, updateConversation_frame_name, updateUserData_frame,
   updateChatData_frame⟩

/-- C5 witness: the frame property applied at concrete distinct keys,
handler names and ids. -/
theorem c5_witness :
    ((emptyP.updateConversation nameA [1] (Json.num 5)).convEntry nameA [2]
      = emptyP.convEntry nameA [2]) ∧
    ((emptyP.updateConversation nameA [1] (Json.num 5)).convEntry nameB [1]
      = emptyP.convEntry nameB [1]) ∧
    ((emptyP.updateUserData 1 wBad).userEntry 2 = emptyP.userEntry 2) ∧
    ((emptyP.updateChatData 1 wBad).chatEntry 2 = emptyP.chatEntry 2) :=
  ⟨c5_per_key_frame.1 emptyP nameA [1] [2] (Json.num 5) (by decide),
   c5_per_key_frame.2.1 emptyP nameA nameB [1] [1] (Json.num 5) (by decide),
   c5_per_key_frame.2.2.1 emptyP 1 2 wBad (by decide),
   c5_per_key_frame.2.2.2 emptyP 1 2 wBad (by decide)⟩

/-- C6 (confirmed).  A DictPersistence constructed from four nonempty
JSON strings, on which the four load operations are called without any
mutation, returns from the four *_json properties strings byte-for-byte
equal to the original inputs: the getters never invalidate the cached
strings. -/
theorem c6_json_idempotence (u c b cv : String) (p : DictPersistence) (name : String)
    (hu : u ≠ "") (hc : c ≠ "") (hb : b ≠ "") (hcv : cv ≠ "")
    (hinit : DictPersistence.init u c b cv = Except.ok p) :
    ((((p.getUserData).2.getChatData).2.getBotData).2.getConversations
      name).2.userDataJsonView = u ∧
    ((((p.getUserData).2.getChatData).2.getBotData).2.getConversations
      name).2.chatDataJsonView = c ∧
    ((((p.getUserData).2.getChatData).2.getBotData).2.getConversations
      name).2.botDataJsonView = b ∧
    ((((p.getUserData).2.getChatData).2.getBotData).2.getConversations
      name).2.conversationsJsonView = some cv := by
  obtain ⟨h1, h2, h3, h4⟩ := init_fields u c b cv p hinit
  rcases h1 with ⟨he, -, -⟩ | ⟨-, d1, -, -, hj1⟩
  · exact absurd he hu
  rcases h2 with ⟨he, -, -⟩ | ⟨-, d2, -, -, hj2⟩
  · exact absurd he hc
  rcases h3 with ⟨he, -, -⟩ | ⟨-, d3, -, -, hj3⟩
  · exact absurd he hb
  rcases h4 with ⟨he, -, -⟩ | ⟨-, d4, -, -, hj4⟩
  · exact absurd he hcv
  refine ⟨?_, ?_, ?_, ?_⟩ <;>
    simp [getUserData_eq, getChatData_eq, getBotData_eq, getConversations_eq,
      DictPersistence.userDataJsonView, DictPersistence.chatDataJsonView,
      DictPersistence.botDataJsonView, DictPersistence.conversationsJsonView,
      pyOrStr, hj1, hj2, hj3, hj4, hu, hc, hb, hcv]

/-- C6 witness: the property applied at the three concrete JSON strings
and the state the constructor builds from them. -/
theorem c6_witness :
    ((((wP.getUserData).2.getChatData).2.getBotData).2.getConversations
      nameN).2.userDataJsonView = wUserJson ∧
    ((((wP.getUserData).2.getChatData).2.getBotData).2.getConversations
      nameN).2.chatDataJsonView = wUserJson ∧
    ((((wP.getUserData).2.getChatData).2.getBotData).2.getConversations
      nameN).2.botDataJsonView = wBotJson ∧
    ((((wP.getUserData).2.getChatData).2.getBotData).2.getConversations
      nameN).2.conversationsJsonView = some wConvJson :=
  c6_json_idempotence wUserJson wUserJson wBotJson wConvJson wP nameN
    (by decide) (by decide) (by decide) (by decide) rfl

/-- C7 (confirmed).  InlineQueryHandler.check_update is a total
function of its input, so it never raises: a non-Update input, an Update
without inline_query, and a configured pattern facing an empty or
non-matching query text all yield None; an Update with an inline_query
and no configured pattern yields True. -/
theorem c7_check_update_total (h : InlineQueryHandler) :
    (InlineQueryHandler.checkUpdate h PyInput.other = none) ∧
    (∀ u : Update, u.inline_query = none →
      InlineQueryHandler.checkUpdate h (PyInput.upd u) = none) ∧
    (∀ (u : Update) (iq : InlineQuery) (pat : RePattern), h.pattern = some pat →
      u.inline_query = some iq → iq.query = "" →
      InlineQueryHandler.checkUpdate h (PyInput.upd u) = none) ∧
    (∀ (u : Update) (iq : InlineQuery) (pat : RePattern), h.pattern = some pat →
      u.inline_query = some iq → pat iq.query = none →
      InlineQueryHandler.checkUpdate h (PyInput.upd u) = none) ∧
    (∀ (u : Update) (iq : InlineQuery), h.pattern = none → u.inline_query = some iq →
      InlineQueryHandler.checkUpdate h (PyInput.upd u)
        = some (CheckResult.bool true)) := by
  refine ⟨rfl, ?_, ?_, ?_, ?_⟩
  · intro u hu
    simp [InlineQueryHandler.checkUpdate, hu]
  · intro u iq pat hp hiq hq
    simp [InlineQueryHandler.checkUpdate, hp, hiq, hq]
  · intro u iq pat hp hiq hm
    by_cases hq : iq.query = ""
    · simp [InlineQueryHandler.checkUpdate, hp, hiq, hq]
    · simp [InlineQueryHandler.checkUpdate, hp, hiq, hq, hm]
  · intro u iq hp hiq
    simp [InlineQueryHandler.checkUpdate, hp, hiq]

/-- C7 witness: the five cases applied at concrete handlers, updates and
a pattern that never matches. -/
theorem c7_witness :
    (InlineQueryHandler.checkUpdate ⟨none⟩ PyInput.other = none) ∧
    (InlineQueryHandler.checkUpdate ⟨none⟩ (PyInput.upd ⟨none⟩) = none) ∧
    (InlineQueryHandler.checkUpdate ⟨some (fun _ => none)⟩
      (PyInput.upd ⟨some ⟨""⟩⟩) = none) ∧
    (InlineQueryHandler.checkUpdate ⟨some (fun _ => none)⟩
      (PyInput.upd ⟨some ⟨"q"⟩⟩) = none) ∧
    (InlineQueryHandler.checkUpdate ⟨none⟩ (PyInput.upd ⟨some ⟨"q"⟩⟩)
      = some (CheckResult.bool true)) :=
  ⟨(c7_check_update_total ⟨none⟩).1,
   (c7_check_update_total ⟨none⟩).2.1 ⟨none⟩ rfl,
   (c7_check_update_total ⟨some (fun _ => none)⟩).2.2.1 ⟨some ⟨""⟩⟩ ⟨""⟩
     (fun _ => none) rfl rfl rfl,
   (c7_check_update_total ⟨some (fun _ => none)⟩).2.2.2.1 ⟨some ⟨"q"⟩⟩ ⟨"q"⟩
     (fun _ => none) rfl rfl rfl,
   (c7_check_update_total ⟨none⟩).2.2.2.2 ⟨some ⟨"q"⟩⟩ ⟨"q"⟩ rfl rfl⟩

/-- C8 (corrected).  The original invariant — each serialized view
decodes to a value equal to the live store — fails on reachable states:
JSON stringifies non-string dict keys, so a store holding a dict with
the string key "5" serializes to the same bytes as one with the int key
5 and decodes to the latter.  Amended claim, proved here: whenever a
cached JSON string is present it is never stale — the matching store is
present and the cached string decodes back to it (for the conversations
store up to unobservable empty per-handler maps) — and this invariant is
established by the constructor and preserved by all eight get_* and
update_* operations. -/
theorem c8_cache_consistency :
    (∀ (u c b cv : String) (p : DictPersistence),
      DictPersistence.init u c b cv = Except.ok p → Consistent p) ∧
    (∀ (p : DictPersistence) (uid : Int) (d : PyDict),
      Consistent p → Consistent (p.updateUserData uid d)) ∧
    (∀ (p : DictPersistence) (cid : Int) (d : PyDict),
      Consistent p → Consistent (p.updateChatData cid d)) ∧
    (∀ (p : DictPersistence) (d : PyDict),
      Consistent p → Consistent (p.updateBotData d)) ∧
    (∀ (p : DictPersistence) (n : String) (k : ConvKey) (s : Json),
      Consistent p → Consistent (p.updateConversation n k s)) ∧
    (∀ p : DictPersistence, Consistent p → Consistent (p.getUserData).2) ∧
    (∀ p : DictPersistence, Consistent p → Consistent (p.getChatData).2) ∧
    (∀ p : DictPersistence, Consistent p → Consistent (p.getBotData).2) ∧
    (∀ (p : DictPersistence) (name : String),
      Consistent p → Consistent (p.getConversations name).2) :=
  ⟨consistent_init, consistent_updateUserData, consistent_updateChatData,
   consistent_updateBotData, consistent_updateConversation, consistent_getUserData,
   consistent_getChatData, consistent_getBotData, consistent_getConversations⟩

/-- C8 counterexample to the original claim: from the freshly
constructed state, one update_user_data call with a dict keyed by the
string "5" produces a reachable state whose serialized user-data view no
longer decodes to a value equal to the in-memory store. -/
theorem c8_counterexample :
    DictPersistence.init emptyStr emptyStr emptyStr emptyStr = Except.ok emptyP ∧
    decode_user_chat_data_from_json ((emptyP.updateUserData 1 wBad).userDataJsonView)
      ≠ (emptyP.updateUserData 1 wBad).user_data := by
  constructor
  · rfl
  · decide

/-- C8 witness: the amended invariant applied along a concrete run of
the constructor followed by an update. -/
theorem c8_witness : Consistent (emptyP.updateUserData 1 wBad) :=
  c8_cache_consistency.2.1 emptyP 1 wBad
    (c8_cache_consistency.1 emptyStr emptyStr emptyStr emptyStr emptyP rfl)

/-- C9 (confirmed).  TelegramObject equality on instances of the same
class compares only the _id_attrs tuples: two Locations with equal
longitude and latitude are equal whatever their horizontal_accuracy,
live_period, heading and proximity_alert_radius; two ForceReply objects
are equal exactly when their selective flags are equal, force_reply
notwithstanding. -/
theorem c9_id_attrs_equality :
    (∀ (lon lat : Int) (ha1 lp1 hd1 pr1 ha2 lp2 hd2 pr2 : Option Int),
      Location.eqTO (Location.make lon lat ha1 lp1 hd1 pr1)
        (Location.make lon lat ha2 lp2 hd2 pr2) = true) ∧
    (∀ a b : Location, Location.eqTO a b = true ↔
      a.longitude = b.longitude ∧ a.latitude = b.latitude) ∧
    (∀ a b : ForceReply, ForceReply.eqTO a b = true ↔ a.selective = b.selective) := by
  refine ⟨?_, ?_, ?_⟩
  · intro lon lat ha1 lp1 hd1 pr1 ha2 lp2 hd2 pr2
    simp [Location.eqTO, Location.idAttrs, Location.make]
  · intro a b
    simp [Location.eqTO, Location.idAttrs, Prod.ext_iff]
  · intro a b
    simp [ForceReply.eqTO, ForceReply.idAttrs]

/-- C10 (confirmed).  A Location constructed with an explicit zero for
any of the four optional numeric arguments stores None there, exactly as
if the argument had been omitted, so the two constructions are
indistinguishable. -/
theorem c10_falsy_zero_erased (lon lat : Int) (ha lp hd pr : Option Int) :
    (Location.make lon lat (some 0) lp hd pr).horizontal_accuracy = none ∧
    (Location.make lon lat ha (some 0) hd pr).live_period = none ∧
    (Location.make lon lat ha lp (some 0) pr).heading = none ∧
    (Location.make lon lat ha lp hd (some 0)).proximity_alert_radius = none ∧
    Location.make lon lat (some 0) (some 0) (some 0) (some 0)
      = Location.make lon lat none none none none := by
  refine ⟨?_, ?_, ?_, ?_, ?_⟩ <;> simp [Location.make, orNone]

end PTB
